import Mathlib

/-!
Shallow embedding of the core of the Xinu-style kernel in this repository
(src/kernel.c, src/process.c, src/semaphore.c, src/clock.c, src/queue.c).

Modelling conventions:
- Machine integers (int32_t, uint32_t, pid32, sid32, qid32) are modelled as
  Lean Int.  No operation proved about here overflows 32 bits on the inputs
  considered, and the few unsigned fields (pprio, pargs) only ever hold
  small non-negative values on the paths the claims are about, so signed
  Int comparison agrees with the C comparisons there.
- The global tables (proctab, semtab, the private sem_queues of
  semaphore.c, queuetab of queue.c) are total functions out of Fin N.
  C array indexing with an index the code has already bounds-checked is
  modelled exactly; indexing out of range is undefined behaviour in C and
  is totalised here by reducing the index mod the table size (pidx, sidx,
  qidx).  Every modelled code path performs the same bounds checks the C
  code performs before indexing.
- disable / restore interrupt masking is invisible in a sequential
  embedding and is dropped.  Memory management (getstk / freestk) and the
  saved register image, process name, and stack frame construction are not
  read by any operation modelled here and are reduced to the two integer
  fields (pstkbase, pstklen) that kill writes.
- Blocking primitives (wait, timedwait) are split into an enter phase
  (everything up to and including the resched call that suspends the
  caller) and a resume phase (the code that runs after the caller is next
  scheduled); this is the standard decomposition of a blocking syscall in
  a sequential state-machine embedding.
- Header files (include/kernel.h, include/process.h) are not in the
  repository; the numeric constants they define are taken from the
  specification (process state codes FREE=0..WAIT=6, NQENT = NPROC+NSEM+4,
  seed configuration NPROC=8, NSEM=8, SysErr negative, Ok = 0).  The
  priority clamp values are not used by any claim below beyond being
  concrete integers.
- clock.c names the process state field prstate while process.c,
  kernel.c and semaphore.c name it pstate; with the header absent these
  are modelled as one field, pstate.
-/

namespace XinuCore

/-- Process table size (spec seed configuration, header missing). -/
def NPROC : Nat := 8

/-- Semaphore table size (spec seed configuration, header missing). -/
def NSEM : Nat := 8

/-- Queue entry pool size, NQENT = NPROC + NSEM + 4 (src/queue.c line 19). -/
def NQENT : Nat := NPROC + NSEM + 4

/-- Process state codes, from spec section 6 (header missing). -/
def PR_FREE : Int := 0

def PR_CURR : Int := 1

def PR_READY : Int := 2

def PR_RECV : Int := 3

def PR_SLEEP : Int := 4

def PR_SUSP : Int := 5

def PR_WAIT : Int := 6

/-- Error return value; spec: SysErr is negative (standard Xinu value). -/
def SYSERR : Int := -1

/-- Success return value (spec: Ok = 0). -/
def OK : Int := 0

/-- Modelled from the spec: priority clamp constants from the missing
header.  Only PRIORITY_DEFAULT is read by a modelled operation (kill). -/
def PRIORITY_DEFAULT : Int := 20

/-- Queue entry sentinel keys (header missing; int32 extremes). -/
def MAXINT : Int := 2147483647

def MININT : Int := -2147483648

/-- Queue entry states (src/queue.c lines 23-26). -/
def QE_FREE : Int := 0

def QE_HEAD : Int := 1

def QE_TAIL : Int := 2

def QE_PROC : Int := 3

/-- Process control block: the fields of proc_t read or written by the
modelled operations.  pwait is overloaded exactly as in the source: it
holds a semaphore id transiently in wait, the next-pid link of the
semaphore FIFO (semaphore.c enqueue_sem), and the next-pid link of the
ready list (kernel.c enqueue_ready); -1 is the end marker.  pargs holds
the sleep delta (queue.c insertd) or a stored timeout (timedwait). -/
structure PCB where
  pstate : Int
  pprio : Int
  pwait : Int
  pargs : Int
  pmsg : Int
  phasmsg : Bool
  pstkbase : Int
  pstklen : Int
deriving DecidableEq, Repr

/-- A freshly initialised (FREE) process table slot, as kernel_init leaves
it (src/kernel.c lines 78-92). -/
def basePCB : PCB := ⟨PR_FREE, PRIORITY_DEFAULT, -1, 0, 0, false, 0, 0⟩

instance : Inhabited PCB := ⟨basePCB⟩

/-- Semaphore table entry (sem_t): signed count and the queue field whose
value -1 marks a free slot (src/semaphore.c init_semaphores). -/
structure SemEntry where
  count : Int
  queue : Int
deriving DecidableEq, Repr

/-- Private wait-queue head and tail pids of semaphore.c (sem_queues). -/
structure SemQ where
  head : Int
  tail : Int
deriving DecidableEq, Repr

/-- Queue pool entry (src/queue.c qentry_t). -/
structure QEntry where
  key : Int
  next : Int
  prev : Int
  state : Int
deriving DecidableEq, Repr

instance : Inhabited QEntry := ⟨⟨0, 0, 0, QE_FREE⟩⟩

/-- The kernel state: every global variable read or written by the
modelled operations of kernel.c, process.c, semaphore.c, clock.c and
queue.c. -/
structure Kernel where
  proctab : Fin NPROC → PCB
  currpid : Int
  semtab : Fin NSEM → SemEntry
  semQueues : Fin NSEM → SemQ
  semfree : Int
  nsemUsed : Int
  readyHead : Int
  readyTail : Int
  queuetab : Fin NQENT → QEntry
  qfree : Int
  sleepq : Int
  slnempty : Bool
  pidInUse : Fin NPROC → Bool
deriving DecidableEq, Repr

/-- Totalised process table index (see the header comment on array
indexing). -/
def pidx (p : Int) : Fin NPROC := ⟨p.toNat % NPROC, Nat.mod_lt _ (by decide)⟩

/-- Totalised semaphore table index. -/
def sidx (x : Int) : Fin NSEM := ⟨x.toNat % NSEM, Nat.mod_lt _ (by decide)⟩

/-- Totalised queue pool index. -/
def qidx (x : Int) : Fin NQENT := ⟨x.toNat % NQENT, Nat.mod_lt _ (by decide)⟩

/-- Read proctab at a pid. -/
def getP (s : Kernel) (p : Int) : PCB := s.proctab (pidx p)

/-- Update one proctab slot. -/
def setP (s : Kernel) (p : Int) (f : PCB → PCB) : Kernel :=
  { s with proctab := Function.update s.proctab (pidx p) (f (s.proctab (pidx p))) }

/-- Read the queue pool at an index. -/
def getQ (s : Kernel) (x : Int) : QEntry := s.queuetab (qidx x)

/-- Update one queue pool entry. -/
def setQ (s : Kernel) (x : Int) (f : QEntry → QEntry) : Kernel :=
  { s with queuetab := Function.update s.queuetab (qidx x) (f (s.queuetab (qidx x))) }

/-- Read semtab at a semaphore id. -/
def getS (s : Kernel) (x : Int) : SemEntry := s.semtab (sidx x)

/-- Replace semtab at a semaphore id. -/
def setS (s : Kernel) (x : Int) (e : SemEntry) : Kernel :=
  { s with semtab := Function.update s.semtab (sidx x) e }

/-- Read the private wait queue record of a semaphore. -/
def getSQ (s : Kernel) (x : Int) : SemQ := s.semQueues (sidx x)

/-- Replace the private wait queue record of a semaphore. -/
def setSQ (s : Kernel) (x : Int) (e : SemQ) : Kernel :=
  { s with semQueues := Function.update s.semQueues (sidx x) e }

/-- semtab[x].count += d. -/
def bumpCount (s : Kernel) (x : Int) (d : Int) : Kernel :=
  setS s x { getS s x with count := (getS s x).count + d }

/-- A pid the bounds checks of the source accept. -/
def validPid (p : Int) : Prop := 0 ≤ p ∧ p < (NPROC : Int)

instance (p : Int) : Decidable (validPid p) := by unfold validPid; infer_instance

/-!
Intrusive pid chains.  Both the semaphore wait FIFO (semaphore.c) and the
ready list (kernel.c) chain process table entries through the pwait field
with -1 as end marker.  chainF follows such a chain with explicit fuel and
returns none if the chain leaves the table or does not reach -1 within the
fuel; a well-formed kernel list always yields some. -/
def chainF (s : Kernel) : Int → Nat → Option (List Int)
  | p, 0 => if p = -1 then some [] else none
  | p, fuel + 1 =>
    if p = -1 then some []
    else if validPid p then (chainF s (getP s p).pwait fuel).map (fun l => p :: l)
    else none

/-- The semaphore wait FIFO of sem as a pid list (empty on breakage). -/
def semChainList (s : Kernel) (sem : Int) : List Int :=
  (chainF s (getSQ s sem).head (NPROC + 1)).getD []

/-- The scheduler ready list as a pid list (empty on breakage). -/
def readyChainList (s : Kernel) : List Int :=
  (chainF s s.readyHead (NPROC + 1)).getD []

/-- Number of PCBs in state WAITING linked on the wait FIFO of sem. -/
def waitingOnSem (s : Kernel) (sem : Int) : Nat :=
  ((semChainList s sem).filter (fun p => (getP s p).pstate = PR_WAIT)).length

/-- The semaphore counting invariant of the specification: the number of
WAITING PCBs linked on the wait list of sem equals max(0, -count). -/
def semWaitInvariant (s : Kernel) (sem : Int) : Prop :=
  (waitingOnSem s sem : Int) = max 0 (-(getS s sem).count)

instance (s : Kernel) (sem : Int) : Decidable (semWaitInvariant s sem) := by
  unfold semWaitInvariant; infer_instance

/-- Well-formedness of the wait FIFO of sem: the pwait chain from its head
is closed, duplicate-free, and the tail pointer agrees with it. -/
def semQWF (s : Kernel) (sem : Int) : Prop :=
  chainF s (getSQ s sem).head (NPROC + 1) = some (semChainList s sem) ∧
  (semChainList s sem).Nodup ∧
  (semChainList s sem = [] → (getSQ s sem).head = -1 ∧ (getSQ s sem).tail = -1) ∧
  (semChainList s sem ≠ [] → (getSQ s sem).tail = (semChainList s sem).getLast?.getD (-1))

instance (s : Kernel) (sem : Int) : Decidable (semQWF s sem) := by
  unfold semQWF; infer_instance

/-- Well-formedness of the ready list: the pwait chain from readyHead is
closed and duplicate-free. -/
def readyWF (s : Kernel) : Prop :=
  chainF s s.readyHead (NPROC + 1) = some (readyChainList s) ∧ (readyChainList s).Nodup

instance (s : Kernel) : Decidable (readyWF s) := by
  unfold readyWF; infer_instance

/-- Scheduler well-formedness: the ready list is well formed, the current
pid is a table index, and the current process is not on the ready list. -/
def schedWF (s : Kernel) : Prop :=
  readyWF s ∧ validPid s.currpid ∧ s.currpid ∉ readyChainList s

instance (s : Kernel) : Decidable (schedWF s) := by
  unfold schedWF; infer_instance

/-- The pids of l are untouched by the scheduler: none of them is the
current process, on the ready list, or the null process. -/
def schedDisjoint (s : Kernel) (l : List Int) : Prop :=
  ∀ p ∈ l, p ≠ s.currpid ∧ p ∉ readyChainList s ∧ p ≠ 0

instance (s : Kernel) (l : List Int) : Decidable (schedDisjoint s l) := by
  unfold schedDisjoint; infer_instance

/-!  Scheduler: src/kernel.c. -/

/-- The insertion point search of enqueue_ready (kernel.c lines 159-163):
walk (prev, curr) while curr is not -1 and its priority is at least prio.
Returns the final (prev, curr). -/
def enqRwalk (s : Kernel) (prio : Int) : Int → Int → Nat → Int × Int
  | prev, curr, 0 => (prev, curr)
  | prev, curr, fuel + 1 =>
    if curr ≠ -1 ∧ prio ≤ (getP s curr).pprio then
      enqRwalk s prio curr (getP s curr).pwait fuel
    else (prev, curr)

/-- enqueue_ready (kernel.c lines 154-177): insert pid into the ready
list in priority order, highest first, after existing entries of equal
priority; pwait is the next link. -/
def enqueue_ready (s : Kernel) (pid : Int) : Kernel :=
  let prio := (getP s pid).pprio
  let pc := enqRwalk s prio (-1) s.readyHead (NPROC + 1)
  let prev := pc.1
  let curr := pc.2
  let s1 := setP s pid (fun e => { e with pwait := curr })
  let s2 :=
    if prev = -1 then { s1 with readyHead := pid }
    else setP s1 prev (fun e => { e with pwait := pid })
  if curr = -1 then { s2 with readyTail := pid } else s2

/-- dequeue_ready (kernel.c lines 184-199): pop the ready list head. -/
def dequeue_ready (s : Kernel) : Kernel × Int :=
  let pid := s.readyHead
  if pid = -1 then (s, -1)
  else
    let s1 := { s with readyHead := (getP s pid).pwait }
    let s2 := setP s1 pid (fun e => { e with pwait := -1 })
    let s3 := if s2.readyHead = -1 then { s2 with readyTail := -1 } else s2
    (s3, pid)

/-- The selection tail of resched (kernel.c lines 354-371): dequeue the
ready list, fall back to the null process, mark the choice CURRENT and
make it current (context_switch only repeats these two assignments). -/
def reschedPick (s : Kernel) : Kernel :=
  let r := dequeue_ready s
  let newpid := if r.2 = -1 then 0 else r.2
  let s2 := setP r.1 newpid (fun e => { e with pstate := PR_CURR })
  { s2 with currpid := newpid }

/-- resched (kernel.c lines 329-372). -/
def resched (s : Kernel) : Kernel :=
  let old := s.currpid
  if (getP s old).pstate = PR_CURR then
    if s.readyHead ≠ -1 ∧ (getP s old).pprio < (getP s s.readyHead).pprio then
      reschedPick (enqueue_ready (setP s old (fun e => { e with pstate := PR_READY })) old)
    else s
  else reschedPick s

/-- yield (process.c lines 554-556). -/
def yield (s : Kernel) : Kernel := resched s

/-!  Semaphore wait FIFO: src/semaphore.c lines 74-108. -/

/-- enqueue_sem (semaphore.c lines 74-85): append pid at the FIFO tail;
the chain runs through pwait and ends with -1. -/
def enqueue_sem (s : Kernel) (sem : Int) (pid : Int) : Kernel :=
  let s1 :=
    if (getSQ s sem).tail = -1 then setSQ s sem ⟨pid, pid⟩
    else
      let t := (getSQ s sem).tail
      let s' := setP s t (fun e => { e with pwait := pid })
      setSQ s' sem ⟨(getSQ s' sem).head, pid⟩
  setP s1 pid (fun e => { e with pwait := -1 })

/-- dequeue_sem (semaphore.c lines 94-108): pop the FIFO head, or -1. -/
def dequeue_sem (s : Kernel) (sem : Int) : Kernel × Int :=
  let pid := (getSQ s sem).head
  if pid = -1 then (s, -1)
  else
    let nh := (getP s pid).pwait
    let s1 := setSQ s sem ⟨nh, if nh = -1 then -1 else (getSQ s sem).tail⟩
    let s2 := setP s1 pid (fun e => { e with pwait := -1 })
    (s2, pid)

/-!  Semaphore operations: src/semaphore.c. -/

/-- Result of the enter phase of a blocking primitive: an immediate
return value, or blocked (the caller was suspended by resched). -/
inductive WaitRes where
  | ret (v : Int)
  | blocked
deriving DecidableEq, Repr

/-- The shared increment-and-wake step: the body of the signaln loop
(semaphore.c lines 360-371), which is also lines 319-328 of signal.
Returns the new state and the pid woken (-1 if none). -/
def signalCore (s : Kernel) (sem : Int) : Kernel × Int :=
  let s1 := bumpCount s sem 1
  if (getS s1 sem).count ≤ 0 then
    let r := dequeue_sem s1 sem
    if r.2 ≠ -1 then
      (setP r.1 r.2 (fun e => { e with pstate := PR_READY, pwait := -1 }), r.2)
    else (r.1, -1)
  else (s1, -1)

/-- signal (semaphore.c lines 304-333).  Increment the count; if it is
then at most 0, dequeue the FIFO head, mark it READY, clear its pwait and
resched.  Note it does not insert the woken pid into the ready list. -/
def signal (s : Kernel) (sem : Int) : Kernel × Int :=
  if sem < 0 ∨ (NSEM : Int) ≤ sem then (s, SYSERR)
  else if (getS s sem).queue = -1 then (s, SYSERR)
  else
    let r := signalCore s sem
    if r.2 ≠ -1 then (resched r.1, OK) else (r.1, OK)

/-- The while loop of signaln (semaphore.c lines 360-371), n times. -/
def signalnLoop (s : Kernel) (sem : Int) : Nat → Kernel
  | 0 => s
  | k + 1 => signalnLoop (signalCore s sem).1 sem k

/-- signaln (semaphore.c lines 345-376): n increment-and-wake steps, then
one trailing resched. -/
def signaln (s : Kernel) (sem : Int) (n : Int) : Kernel × Int :=
  if sem < 0 ∨ (NSEM : Int) ≤ sem ∨ n ≤ 0 then (s, SYSERR)
  else if (getS s sem).queue = -1 then (s, SYSERR)
  else (resched (signalnLoop s sem n.toNat), OK)

/-- Enter phase of wait (semaphore.c lines 259-281): validate, decrement
the count, and if it went negative mark the caller WAITING, store the
semaphore id in pwait (immediately overwritten by enqueue_sem with the
FIFO end marker), enqueue at the FIFO tail and resched. -/
def waitEnter (s : Kernel) (sem : Int) : Kernel × WaitRes :=
  if sem < 0 ∨ (NSEM : Int) ≤ sem then (s, .ret SYSERR)
  else if (getS s sem).queue = -1 then (s, .ret SYSERR)
  else
    let s1 := bumpCount s sem (-1)
    if (getS s1 sem).count < 0 then
      let s2 := setP s1 s1.currpid (fun e => { e with pstate := PR_WAIT, pwait := sem })
      let s3 := enqueue_sem s2 sem s2.currpid
      (resched s3, .blocked)
    else (s1, .ret OK)

/-- Resume phase of wait (semaphore.c lines 283-291): after wakeup return
SYSERR if the semaphore slot is now free, else OK. -/
def waitResume (s : Kernel) (sem : Int) : Int :=
  if (getS s sem).queue = -1 then SYSERR else OK

/-- trywait (semaphore.c lines 420-442). -/
def trywait (s : Kernel) (sem : Int) : Kernel × Int :=
  if sem < 0 ∨ (NSEM : Int) ≤ sem then (s, SYSERR)
  else if (getS s sem).queue = -1 then (s, SYSERR)
  else if 0 < (getS s sem).count then (bumpCount s sem (-1), OK)
  else (s, SYSERR)

/-- Enter phase of timedwait (semaphore.c lines 454-482): validate, try an
immediate acquire, else decrement, mark WAITING, store the timeout in
pargs, enqueue and resched. -/
def timedwaitEnter (s : Kernel) (sem : Int) (timeout : Int) : Kernel × WaitRes :=
  if sem < 0 ∨ (NSEM : Int) ≤ sem then (s, .ret SYSERR)
  else if (getS s sem).queue = -1 then (s, .ret SYSERR)
  else if 0 < (getS s sem).count then (bumpCount s sem (-1), .ret OK)
  else
    let s1 := bumpCount s sem (-1)
    let s2 := setP s1 s1.currpid
      (fun e => { e with pstate := PR_WAIT, pwait := sem, pargs := timeout })
    let s3 := enqueue_sem s2 sem s2.currpid
    (resched s3, .blocked)

/-- Resume phase of timedwait (semaphore.c lines 484-494): SYSERR if the
semaphore was deleted, else OK (the source does not implement the
timeout and assumes the semaphore was acquired). -/
def timedwaitResume (s : Kernel) (sem : Int) : Int :=
  if (getS s sem).queue = -1 then SYSERR else OK

/-- The wake-all loop of semdelete (semaphore.c lines 189-192). -/
def semdeleteLoop (s : Kernel) (sem : Int) : Nat → Kernel
  | 0 => s
  | k + 1 =>
    let r := dequeue_sem s sem
    if r.2 = -1 then s
    else semdeleteLoop (setP r.1 r.2 (fun e => { e with pstate := PR_READY })) sem k

/-- semdelete (semaphore.c lines 171-204): wake every waiter, thread the
slot back on the free list through the count field, and resched. -/
def semdelete (s : Kernel) (sem : Int) : Kernel × Int :=
  if sem < 0 ∨ (NSEM : Int) ≤ sem then (s, SYSERR)
  else if (getS s sem).queue = -1 then (s, SYSERR)
  else
    let s1 := semdeleteLoop s sem (NPROC + 1)
    let s2 := setS s1 sem ⟨s1.semfree, -1⟩
    let s3 := { s2 with semfree := sem, nsemUsed := s2.nsemUsed - 1 }
    (resched s3, OK)

/-- semcount (semaphore.c lines 385-404). -/
def semcount (s : Kernel) (sem : Int) : Kernel × Int :=
  if sem < 0 ∨ (NSEM : Int) ≤ sem then (s, SYSERR)
  else if (getS s sem).queue = -1 then (s, SYSERR)
  else (s, (getS s sem).count)

/-!  Process management: src/process.c and src/kernel.c. -/

/-- ready (process.c lines 364-388): mark a process READY; it is NOT
added to the ready list (the source comment defers that to the scheduler,
which never does it). -/
def ready (s : Kernel) (pid : Int) (reschedFlag : Bool) : Kernel :=
  if pid < 0 ∨ (NPROC : Int) ≤ pid then s
  else if (getP s pid).pstate = PR_FREE then s
  else
    let s1 := setP s pid (fun e => { e with pstate := PR_READY })
    if reschedFlag then resched s1 else s1

/-- resume (process.c lines 447-470): only a SUSPENDED process may be
resumed; returns its priority, or SYSERR. -/
def resume (s : Kernel) (pid : Int) : Kernel × Int :=
  if pid < 0 ∨ (NPROC : Int) ≤ pid then (s, SYSERR)
  else if (getP s pid).pstate ≠ PR_SUSP then (s, SYSERR)
  else (ready s pid true, (getP s pid).pprio)

/-- kill (process.c lines 255-308).  Note the WAITING branch: it tests
and increments semtab at pptr.pwait, which after enqueue_sem holds the
FIFO next link (-1 at the tail, the next waiting pid otherwise), not the
semaphore id; and it never unlinks the PCB from the wait FIFO. -/
def kill (s : Kernel) (pid : Int) : Kernel :=
  if pid < 0 ∨ (NPROC : Int) ≤ pid then s
  else if pid = 0 then s
  else if (getP s pid).pstate = PR_FREE then s
  else
    let s1 :=
      if (getP s pid).pstkbase ≠ 0 then
        setP s pid (fun e => { e with pstkbase := 0, pstklen := 0 })
      else s
    let s2 :=
      if (getP s1 pid).pstate = PR_WAIT ∧ 0 ≤ (getP s1 pid).pwait ∧
          (getP s1 pid).pwait < (NSEM : Int) then
        bumpCount s1 (getP s1 pid).pwait 1
      else s1
    let s3 := setP s2 pid (fun e =>
      { e with pstate := PR_FREE, pprio := PRIORITY_DEFAULT, pwait := -1,
               pmsg := 0, phasmsg := false })
    let s4 := { s3 with pidInUse := Function.update s3.pidInUse (pidx pid) false }
    if pid = s4.currpid then resched s4 else s4

/-- sleep of process.c (lines 484-504): delay 0 yields; otherwise store
the delay in pargs, mark SLEEP and resched (no sleep queue insertion). -/
def sleep_process (s : Kernel) (delay : Int) : Kernel :=
  if delay = 0 then yield s
  else
    let s1 := setP s s.currpid (fun e => { e with pargs := delay, pstate := PR_SLEEP })
    resched s1

/-- getprio (kernel.c lines 494-513). -/
def getprio (s : Kernel) (pid : Int) : Kernel × Int :=
  if pid < 0 ∨ (NPROC : Int) ≤ pid then (s, SYSERR)
  else if (getP s pid).pstate = PR_FREE then (s, SYSERR)
  else (s, (getP s pid).pprio)

/-- getstate (process.c lines 739-744): note that unlike getprio and
semcount there is no free-slot check; a FREE slot returns PR_FREE. -/
def getstate (s : Kernel) (pid : Int) : Kernel × Int :=
  if pid < 0 ∨ (NPROC : Int) ≤ pid then (s, SYSERR)
  else (s, (getP s pid).pstate)

/-!  Queue pool: src/queue.c. -/

/-- isempty (queue.c lines 207-216). -/
def isemptyQ (s : Kernel) (q : Int) : Bool :=
  if q < 0 ∨ (NQENT : Int) ≤ q then true
  else if (getQ s q).state ≠ QE_HEAD then true
  else
    let t := (getQ s q).next
    decide ((getQ s t).state = QE_TAIL ∧ (getQ s t).prev = q)

/-- nonempty (queue.c lines 225-227). -/
def nonemptyQ (s : Kernel) (q : Int) : Bool := ! isemptyQ s q

/-- The insertion point search of insertd (queue.c lines 489-498): walk
body entries; on the first whose stored delta exceeds the remaining key
stop there (hit = true, that delta is then reduced); otherwise subtract
the delta from the key and continue.  Deltas live in proctab[..].pargs.
Returns (curr, remaining key, hit). -/
def insdFind (s : Kernel) : Int → Int → Nat → Int × Int × Bool
  | curr, key, 0 => (curr, key, false)
  | curr, key, fuel + 1 =>
    if (getQ s curr).state = QE_PROC then
      if key < (getP s (getQ s curr).key).pargs then (curr, key, true)
      else insdFind s (getQ s curr).next (key - (getP s (getQ s curr).key).pargs) fuel
    else (curr, key, false)

/-- insertd (queue.c lines 461-513): allocate a pool entry, find the
delta insertion point, reduce the delta of the entry inserted before (if
any), link the new entry in, and store the remaining key as the new
delta of pid. -/
def insertd (s : Kernel) (pid : Int) (q : Int) (key : Int) : Kernel × Int :=
  if q < 0 ∨ (NQENT : Int) ≤ q ∨ pid < 0 ∨ (NPROC : Int) ≤ pid then (s, SYSERR)
  else if (getQ s q).state ≠ QE_HEAD then (s, SYSERR)
  else if s.qfree = -1 then (s, SYSERR)
  else
    let entry := s.qfree
    let s1 := { s with qfree := (getQ s entry).next }
    let s2 := if s1.qfree ≠ -1 then setQ s1 s1.qfree (fun e => { e with prev := -1 }) else s1
    let f := insdFind s2 (getQ s2 q).next key (NQENT + 1)
    let curr := f.1
    let key' := f.2.1
    let s3 :=
      if f.2.2 then
        setP s2 (getQ s2 curr).key
          (fun e => { e with pargs := (getP s2 (getQ s2 curr).key).pargs - key' })
      else s2
    let prev := (getQ s3 curr).prev
    let s4 := setQ s3 entry (fun e => { e with state := QE_PROC, key := pid, next := curr, prev := prev })
    let s5 := setP s4 pid (fun e => { e with pargs := key' })
    let s6 := setQ s5 prev (fun e => { e with next := entry })
    let s7 := setQ s6 curr (fun e => { e with prev := entry })
    (s7, OK)

/-- The search loop of getitem (queue.c lines 607-625). -/
def getitemWalk (s : Kernel) (pid : Int) : Int → Nat → Option Int
  | _, 0 => none
  | curr, fuel + 1 =>
    if (getQ s curr).state = QE_PROC then
      if (getQ s curr).key = pid then some curr
      else getitemWalk s pid (getQ s curr).next fuel
    else none

/-- getitem (queue.c lines 591-630): unlink the entry holding pid and
return it to the free pool.  Note: no delta is propagated to the
successor entry. -/
def getitem (s : Kernel) (pid : Int) (q : Int) : Kernel × Int :=
  if q < 0 ∨ (NQENT : Int) ≤ q ∨ pid < 0 ∨ (NPROC : Int) ≤ pid then (s, SYSERR)
  else if (getQ s q).state ≠ QE_HEAD then (s, SYSERR)
  else
    match getitemWalk s pid (getQ s q).next (NQENT + 1) with
    | none => (s, SYSERR)
    | some curr =>
      let nx := (getQ s curr).next
      let pv := (getQ s curr).prev
      let s1 := setQ s pv (fun e => { e with next := nx })
      let s2 := setQ s1 nx (fun e => { e with prev := pv })
      let s3 := setQ s2 curr (fun e => { e with state := QE_FREE, next := s2.qfree })
      let s4 := if s3.qfree ≠ -1 then setQ s3 s3.qfree (fun e => { e with prev := curr }) else s3
      ({ s4 with qfree := curr }, OK)

/-!  Sleep and clock: src/clock.c. -/

/-- sleep of clock.c (lines 319-345): delay 0 returns OK immediately with
no state change and no resched; otherwise mark SLEEP, insertd into the
sleep delta list and resched. -/
def sleep_clock (s : Kernel) (delay : Int) : Kernel × Int :=
  if delay = 0 then (s, OK)
  else if s.currpid < 0 ∨ (NPROC : Int) ≤ s.currpid then (s, SYSERR)
  else
    let s1 := setP s s.currpid (fun e => { e with pstate := PR_SLEEP, pargs := delay })
    let s2 := (insertd s1 s1.currpid s1.sleepq delay).1
    let s3 := { s2 with slnempty := true }
    (resched s3, OK)

/-- unsleep of clock.c (lines 369-393): a SLEEP process is removed from
the sleep delta list via getitem (no delta propagation) and marked
SUSPENDED. -/
def unsleep_clock (s : Kernel) (pid : Int) : Kernel × Int :=
  if pid < 0 ∨ (NPROC : Int) ≤ pid then (s, SYSERR)
  else if (getP s pid).pstate ≠ PR_SLEEP then (s, SYSERR)
  else
    let r := getitem s pid s.sleepq
    if r.2 = OK then
      let s2 := setP r.1 pid (fun e => { e with pstate := PR_SUSP })
      ({ s2 with slnempty := nonemptyQ s2 s2.sleepq }, OK)
    else (r.1, r.2)

/-- unsleep of process.c (lines 524-546): the duplicate implementation;
it zeroes pargs and calls ready, i.e. marks the process READY. -/
def unsleep_process (s : Kernel) (pid : Int) : Kernel × Int :=
  if pid < 0 ∨ (NPROC : Int) ≤ pid then (s, SYSERR)
  else if (getP s pid).pstate ≠ PR_SLEEP then (s, SYSERR)
  else
    let s1 := setP s pid (fun e => { e with pargs := 0 })
    (ready s1 pid false, OK)

/-- The body pids of a pool queue in order (delta list contents). -/
def qChain (s : Kernel) : Int → Nat → List Int
  | _, 0 => []
  | q, fuel + 1 =>
    if (getQ s q).state = QE_PROC then (getQ s q).key :: qChain s (getQ s q).next fuel
    else []

/-- The pids on pool queue q, head to tail. -/
def queuePids (s : Kernel) (q : Int) : List Int :=
  qChain s (getQ s q).next (NQENT + 1)

/-- Sum of the stored deltas (pargs) of the entries of pool queue q. -/
def deltaSumQ (s : Kernel) (q : Int) : Int :=
  ((queuePids s q).map (fun p => (getP s p).pargs)).sum

/-- The list-level meaning of the enqueue_ready walk: insert pid after
every element whose priority (read in state s) is at least prio. -/
def insertAfterGE (s : Kernel) (prio : Int) (pid : Int) : List Int → List Int
  | [] => [pid]
  | x :: xs =>
    if prio ≤ (getP s x).pprio then x :: insertAfterGE s prio pid xs
    else pid :: x :: xs

/-- k successive calls of signal (for the signaln comparison). -/
def iterSignal (s : Kernel) (sem : Int) : Nat → Kernel
  | 0 => s
  | k + 1 => iterSignal (signal s sem).1 sem k

/-!  Concrete kernel states used by the witnesses and counterexamples. -/

/-- A freshly initialised kernel: every table slot free, null process
current (kernel_init leaves proctab[0] CURRENT; the remaining fields are
as the initialisers of the sources leave them). -/
def baseKernel : Kernel :=
  ⟨fun i => if i.val = 0 then { basePCB with pstate := PR_CURR, pprio := 0 } else basePCB,
   0, fun _ => ⟨0, -1⟩, fun _ => ⟨-1, -1⟩, 0, 0, -1, -1,
   fun _ => ⟨0, 0, 0, QE_FREE⟩, -1, -1, false, fun _ => false⟩

/-- State for C1: semaphore 0 allocated with count -2 and FIFO [1, 2]
(both WAITING, chained through pwait), process 3 current; semaphore 2 is
a free slot whose count field is a free-list value (77 for visibility). -/
def sK1 : Kernel :=
  { baseKernel with
    proctab := fun i =>
      if i.val = 1 then { basePCB with pstate := PR_WAIT, pwait := 2 }
      else if i.val = 2 then { basePCB with pstate := PR_WAIT, pwait := -1 }
      else if i.val = 3 then { basePCB with pstate := PR_CURR, pprio := 30 }
      else basePCB,
    currpid := 3,
    semtab := fun i =>
      if i.val = 0 then ⟨-2, 0⟩ else if i.val = 2 then ⟨77, -1⟩ else ⟨0, -1⟩,
    semQueues := fun i => if i.val = 0 then ⟨1, 2⟩ else ⟨-1, -1⟩ }

/-- State for C2: semaphore 0 allocated with count 0 and empty FIFO,
process 1 current, ready list empty. -/
def sC2 : Kernel :=
  { baseKernel with
    proctab := fun i =>
      if i.val = 0 then { basePCB with pstate := PR_READY, pprio := 0 }
      else if i.val = 1 then { basePCB with pstate := PR_CURR, pprio := 30 }
      else basePCB,
    currpid := 1,
    semtab := fun i => if i.val = 0 then ⟨0, 0⟩ else ⟨0, -1⟩ }

/-- State for C3: semaphore 0 allocated with count -1 and FIFO [2],
process 1 current at priority 50, ready list empty. -/
def sC3 : Kernel :=
  { baseKernel with
    proctab := fun i =>
      if i.val = 1 then { basePCB with pstate := PR_CURR, pprio := 50 }
      else if i.val = 2 then { basePCB with pstate := PR_WAIT, pwait := -1, pprio := 40 }
      else basePCB,
    currpid := 1,
    semtab := fun i => if i.val = 0 then ⟨-1, 0⟩ else ⟨0, -1⟩,
    semQueues := fun i => if i.val = 0 then ⟨2, 2⟩ else ⟨-1, -1⟩ }

/-- State for the C4 witness: process 1 current at priority 20, ready
list [2] with priority 50 (a preemption-forcing state). -/
def sC4 : Kernel :=
  { baseKernel with
    proctab := fun i =>
      if i.val = 1 then { basePCB with pstate := PR_CURR, pprio := 20 }
      else if i.val = 2 then { basePCB with pstate := PR_READY, pprio := 50, pwait := -1 }
      else basePCB,
    currpid := 1,
    readyHead := 2,
    readyTail := 2 }

/-- State for C5: pool queue 0 holds one body entry (pool index 2) for
pid 4 with stored delta 5; pool entries 3..19 form the free list. -/
def sC5 : Kernel :=
  { baseKernel with
    proctab := fun i =>
      if i.val = 4 then { basePCB with pstate := PR_SLEEP, pargs := 5 }
      else if i.val = 1 then { basePCB with pstate := PR_CURR, pprio := 30 }
      else basePCB,
    currpid := 1,
    queuetab := fun i =>
      if i.val = 0 then ⟨MAXINT, 2, -1, QE_HEAD⟩
      else if i.val = 1 then ⟨MININT, -1, 2, QE_TAIL⟩
      else if i.val = 2 then ⟨4, 1, 0, QE_PROC⟩
      else ⟨0, if i.val = 19 then -1 else (i.val : Int) + 1, (i.val : Int) - 1, QE_FREE⟩,
    qfree := 3 }

/-- State after insertd of pid 6 with delta key 3 into sC5. -/
def sC5a : Kernel := (insertd sC5 6 0 3).1

/-- State after removing pid 6 again from sC5a with getitem. -/
def sC5b : Kernel := (getitem sC5a 6 0).1

/-- State for C6: the sleep queue (pool queue 0) holds pid 2 with delta 5
followed by pid 3 with delta 2; both are SLEEP; process 1 is current. -/
def sC6 : Kernel :=
  { baseKernel with
    proctab := fun i =>
      if i.val = 1 then { basePCB with pstate := PR_CURR, pprio := 30 }
      else if i.val = 2 then { basePCB with pstate := PR_SLEEP, pargs := 5 }
      else if i.val = 3 then { basePCB with pstate := PR_SLEEP, pargs := 2 }
      else basePCB,
    currpid := 1,
    queuetab := fun i =>
      if i.val = 0 then ⟨MAXINT, 2, -1, QE_HEAD⟩
      else if i.val = 1 then ⟨MININT, -1, 3, QE_TAIL⟩
      else if i.val = 2 then ⟨2, 3, 0, QE_PROC⟩
      else if i.val = 3 then ⟨3, 1, 2, QE_PROC⟩
      else ⟨0, if i.val = 19 then -1 else (i.val : Int) + 1, (i.val : Int) - 1, QE_FREE⟩,
    qfree := 4,
    sleepq := 0,
    slnempty := true }

/-- State for C7: semaphore 0 allocated with count 0 and empty FIFO,
process 1 current with pargs 0, ready list empty, semaphore free list
starting at slot 1. -/
def sC7 : Kernel :=
  { baseKernel with
    proctab := fun i =>
      if i.val = 0 then { basePCB with pstate := PR_READY, pprio := 0 }
      else if i.val = 1 then { basePCB with pstate := PR_CURR, pprio := 30 }
      else basePCB,
    currpid := 1,
    semtab := fun i => if i.val = 0 then ⟨0, 0⟩ else ⟨0, -1⟩,
    semfree := 1,
    nsemUsed := 1 }

/-- sC7 after the blocking enter phase of timedwait(0, 77). -/
def sC7a : Kernel := (timedwaitEnter sC7 0 77).1

/-- sC7a after semdelete(0) (run by another process). -/
def sC7b : Kernel := (semdelete sC7a 0).1

/-- State for the C8 witness: semaphore 0 allocated with count -3 and
FIFO [2, 3, 4], process 1 current at priority 50, ready list empty. -/
def sC8 : Kernel :=
  { baseKernel with
    proctab := fun i =>
      if i.val = 1 then { basePCB with pstate := PR_CURR, pprio := 50 }
      else if i.val = 2 then { basePCB with pstate := PR_WAIT, pwait := 3, pprio := 40 }
      else if i.val = 3 then { basePCB with pstate := PR_WAIT, pwait := 4, pprio := 40 }
      else if i.val = 4 then { basePCB with pstate := PR_WAIT, pwait := -1, pprio := 40 }
      else basePCB,
    currpid := 1,
    semtab := fun i => if i.val = 0 then ⟨-3, 0⟩ else ⟨0, -1⟩,
    semQueues := fun i => if i.val = 0 then ⟨2, 4⟩ else ⟨-1, -1⟩ }

/-- State for C9: process 1 current at priority 5, ready list [2] at
priority 9, so a reschedule decision would switch. -/
def sC9 : Kernel :=
  { baseKernel with
    proctab := fun i =>
      if i.val = 1 then { basePCB with pstate := PR_CURR, pprio := 5 }
      else if i.val = 2 then { basePCB with pstate := PR_READY, pprio := 9, pwait := -1 }
      else basePCB,
    currpid := 1,
    readyHead := 2,
    readyTail := 2 }

/-!  Lemma toolkit. -/

theorem pidx_inj {p q : Int} (hp : validPid p) (hq : validPid q)
    (h : pidx p = pidx q) : p = q := by
  unfold validPid at hp hq
  have h' : p.toNat % NPROC = q.toNat % NPROC := congrArg Fin.val h
  unfold NPROC at hp hq h'
  omega

@[simp] theorem setP_currpid (s : Kernel) (p : Int) (f : PCB → PCB) :
    (setP s p f).currpid = s.currpid := rfl

@[simp] theorem setP_semtab (s : Kernel) (p : Int) (f : PCB → PCB) :
    (setP s p f).semtab = s.semtab := rfl

@[simp] theorem setP_semQueues (s : Kernel) (p : Int) (f : PCB → PCB) :
    (setP s p f).semQueues = s.semQueues := rfl

@[simp] theorem setP_readyHead (s : Kernel) (p : Int) (f : PCB → PCB) :
    (setP s p f).readyHead = s.readyHead := rfl

@[simp] theorem setP_readyTail (s : Kernel) (p : Int) (f : PCB → PCB) :
    (setP s p f).readyTail = s.readyTail := rfl

@[simp] theorem setP_queuetab (s : Kernel) (p : Int) (f : PCB → PCB) :
    (setP s p f).queuetab = s.queuetab := rfl

@[simp] theorem setP_qfree (s : Kernel) (p : Int) (f : PCB → PCB) :
    (setP s p f).qfree = s.qfree := rfl

@[simp] theorem setP_sleepq (s : Kernel) (p : Int) (f : PCB → PCB) :
    (setP s p f).sleepq = s.sleepq := rfl

@[simp] theorem setP_slnempty (s : Kernel) (p : Int) (f : PCB → PCB) :
    (setP s p f).slnempty = s.slnempty := rfl

@[simp] theorem setP_semfree (s : Kernel) (p : Int) (f : PCB → PCB) :
    (setP s p f).semfree = s.semfree := rfl

@[simp] theorem setP_nsemUsed (s : Kernel) (p : Int) (f : PCB → PCB) :
    (setP s p f).nsemUsed = s.nsemUsed := rfl

@[simp] theorem setP_pidInUse (s : Kernel) (p : Int) (f : PCB → PCB) :
    (setP s p f).pidInUse = s.pidInUse := rfl

@[simp] theorem setS_proctab (s : Kernel) (x : Int) (e : SemEntry) :
    (setS s x e).proctab = s.proctab := rfl

@[simp] theorem setS_semQueues (s : Kernel) (x : Int) (e : SemEntry) :
    (setS s x e).semQueues = s.semQueues := rfl

@[simp] theorem setS_currpid (s : Kernel) (x : Int) (e : SemEntry) :
    (setS s x e).currpid = s.currpid := rfl

@[simp] theorem setS_readyHead (s : Kernel) (x : Int) (e : SemEntry) :
    (setS s x e).readyHead = s.readyHead := rfl

@[simp] theorem setS_readyTail (s : Kernel) (x : Int) (e : SemEntry) :
    (setS s x e).readyTail = s.readyTail := rfl

@[simp] theorem setSQ_proctab (s : Kernel) (x : Int) (e : SemQ) :
    (setSQ s x e).proctab = s.proctab := rfl

@[simp] theorem setSQ_semtab (s : Kernel) (x : Int) (e : SemQ) :
    (setSQ s x e).semtab = s.semtab := rfl

@[simp] theorem setSQ_currpid (s : Kernel) (x : Int) (e : SemQ) :
    (setSQ s x e).currpid = s.currpid := rfl

@[simp] theorem setSQ_readyHead (s : Kernel) (x : Int) (e : SemQ) :
    (setSQ s x e).readyHead = s.readyHead := rfl

@[simp] theorem setSQ_readyTail (s : Kernel) (x : Int) (e : SemQ) :
    (setSQ s x e).readyTail = s.readyTail := rfl

@[simp] theorem bumpCount_proctab (s : Kernel) (x d : Int) :
    (bumpCount s x d).proctab = s.proctab := rfl

@[simp] theorem bumpCount_semQueues (s : Kernel) (x d : Int) :
    (bumpCount s x d).semQueues = s.semQueues := rfl

@[simp] theorem bumpCount_currpid (s : Kernel) (x d : Int) :
    (bumpCount s x d).currpid = s.currpid := rfl

@[simp] theorem bumpCount_readyHead (s : Kernel) (x d : Int) :
    (bumpCount s x d).readyHead = s.readyHead := rfl

@[simp] theorem bumpCount_readyTail (s : Kernel) (x d : Int) :
    (bumpCount s x d).readyTail = s.readyTail := rfl

theorem getP_setP (s : Kernel) (p q : Int) (f : PCB → PCB) :
    getP (setP s p f) q = if pidx q = pidx p then f (getP s p) else getP s q := by
  unfold getP setP
  simp [Function.update_apply]

theorem getP_setP_self (s : Kernel) (p : Int) (f : PCB → PCB) :
    getP (setP s p f) p = f (getP s p) := by
  simp [getP_setP]

theorem getP_setP_ne {s : Kernel} {p q : Int} {f : PCB → PCB}
    (hp : validPid p) (hq : validPid q) (h : q ≠ p) :
    getP (setP s p f) q = getP s q := by
  rw [getP_setP]
  exact if_neg (fun hc => h (pidx_inj hq hp hc))

@[simp] theorem getP_setS (s : Kernel) (x : Int) (e : SemEntry) (q : Int) :
    getP (setS s x e) q = getP s q := rfl

@[simp] theorem getP_setSQ (s : Kernel) (x : Int) (e : SemQ) (q : Int) :
    getP (setSQ s x e) q = getP s q := rfl

@[simp] theorem getP_bumpCount (s : Kernel) (x d : Int) (q : Int) :
    getP (bumpCount s x d) q = getP s q := rfl

theorem getS_setS_self (s : Kernel) (x : Int) (e : SemEntry) :
    getS (setS s x e) x = e := by
  unfold getS setS
  simp

theorem getSQ_setSQ_self (s : Kernel) (x : Int) (e : SemQ) :
    getSQ (setSQ s x e) x = e := by
  unfold getSQ setSQ
  simp

@[simp] theorem getS_setP (s : Kernel) (p : Int) (f : PCB → PCB) (x : Int) :
    getS (setP s p f) x = getS s x := rfl

@[simp] theorem getS_setSQ (s : Kernel) (y : Int) (e : SemQ) (x : Int) :
    getS (setSQ s y e) x = getS s x := rfl

@[simp] theorem getSQ_setP (s : Kernel) (p : Int) (f : PCB → PCB) (x : Int) :
    getSQ (setP s p f) x = getSQ s x := rfl

@[simp] theorem getSQ_setS (s : Kernel) (y : Int) (e : SemEntry) (x : Int) :
    getSQ (setS s y e) x = getSQ s x := rfl

@[simp] theorem getSQ_bumpCount (s : Kernel) (y d : Int) (x : Int) :
    getSQ (bumpCount s y d) x = getSQ s x := rfl

theorem getS_bumpCount_self (s : Kernel) (x d : Int) :
    getS (bumpCount s x d) x = { getS s x with count := (getS s x).count + d } := by
  unfold bumpCount
  exact getS_setS_self ..

theorem validPid_ne_neg1 {p : Int} (hp : validPid p) : p ≠ -1 := by
  unfold validPid at hp
  omega

/-!  Chain lemmas. -/

theorem chainF_neg1 (s : Kernel) (f : Nat) : chainF s (-1) f = some [] := by
  cases f <;> simp [chainF]

theorem chainF_eq_nil {s : Kernel} {p : Int} {f : Nat}
    (h : chainF s p f = some []) : p = -1 := by
  by_contra hc
  cases f with
  | zero => simp [chainF, hc] at h
  | succ g =>
    simp only [chainF, if_neg hc] at h
    by_cases hv : validPid p
    · simp [hv, Option.map_eq_some'] at h
    · simp [hv] at h

theorem chainF_cons {s : Kernel} {p : Int} {f : Nat} {x : Int} {L : List Int}
    (h : chainF s p (f + 1) = some (x :: L)) :
    p = x ∧ validPid x ∧ chainF s (getP s x).pwait f = some L := by
  by_cases hn : p = -1
  · simp [chainF, hn] at h
  by_cases hv : validPid p
  · simp only [chainF, if_neg hn, if_pos hv, Option.map_eq_some'] at h
    obtain ⟨L', hL', hx⟩ := h
    obtain ⟨rfl, rfl⟩ : p = x ∧ L' = L := by
      constructor <;> simp_all
    exact ⟨rfl, hv, hL'⟩
  · simp [chainF, hn, hv] at h

theorem chainF_cons_build {s : Kernel} {x : Int} {L : List Int} {f : Nat}
    (hv : validPid x) (h : chainF s (getP s x).pwait f = some L) :
    chainF s x (f + 1) = some (x :: L) := by
  simp [chainF, validPid_ne_neg1 hv, hv, h]

theorem chainF_valid {s : Kernel} :
    ∀ {f : Nat} {p : Int} {L : List Int}, chainF s p f = some L →
      ∀ x ∈ L, validPid x := by
  intro f
  induction f with
  | zero =>
    intro p L h
    by_cases hn : p = -1 <;> simp [chainF, hn] at h
    subst h; simp
  | succ g ih =>
    intro p L h x hx
    match L with
    | [] => simp at hx
    | y :: L' =>
      obtain ⟨rfl, hv, hrest⟩ := chainF_cons h
      rcases List.mem_cons.mp hx with rfl | hx'
      · exact hv
      · exact ih hrest x hx'

theorem chainF_length {s : Kernel} :
    ∀ {f : Nat} {p : Int} {L : List Int}, chainF s p f = some L →
      L.length ≤ f := by
  intro f
  induction f with
  | zero =>
    intro p L h
    by_cases hn : p = -1 <;> simp [chainF, hn] at h
    subst h; simp
  | succ g ih =>
    intro p L h
    match L with
    | [] => simp
    | y :: L' =>
      obtain ⟨rfl, hv, hrest⟩ := chainF_cons h
      simpa using Nat.succ_le_succ (ih hrest)

theorem chainF_exact {s : Kernel} :
    ∀ {L : List Int} {p : Int} {f : Nat}, chainF s p f = some L →
      ∀ g, L.length ≤ g → chainF s p g = some L := by
  intro L
  induction L with
  | nil =>
    intro p f h g _
    rw [chainF_eq_nil h]
    exact chainF_neg1 ..
  | cons x L' ih =>
    intro p f h g hg
    cases f with
    | zero =>
      by_cases hn : p = -1 <;> simp [chainF, hn] at h
    | succ f' =>
      obtain ⟨rfl, hv, hrest⟩ := chainF_cons h
      cases g with
      | zero => simp at hg
      | succ g' =>
        exact chainF_cons_build hv (ih hrest g' (by simpa using hg))

theorem chainF_congr {s t : Kernel} :
    ∀ {f : Nat} {p : Int} {L : List Int}, chainF s p f = some L →
      (∀ x ∈ L, (getP t x).pwait = (getP s x).pwait) →
      chainF t p f = some L := by
  intro f
  induction f with
  | zero =>
    intro p L h _
    cases L with
    | nil =>
      rw [chainF_eq_nil h]
      exact chainF_neg1 ..
    | cons y L' => exact absurd (chainF_length h) (by simp)
  | succ g ih =>
    intro p L h hag
    cases L with
    | nil =>
      rw [chainF_eq_nil h]
      exact chainF_neg1 ..
    | cons y L' =>
      obtain ⟨hpy, hv, hrest⟩ := chainF_cons h
      subst hpy
      have hres : chainF t (getP t p).pwait g = some L' := by
        rw [hag p (by simp)]
        exact ih hrest (fun x hx => hag x (by simp [hx]))
      exact chainF_cons_build hv hres

theorem nodup_valid_length_le {L : List Int} (hnd : L.Nodup)
    (hv : ∀ x ∈ L, validPid x) : L.length ≤ NPROC := by
  have hmap : (L.map pidx).Nodup := by
    refine List.Nodup.map_on ?_ hnd
    intro x hx y hy hxy
    exact pidx_inj (hv x hx) (hv y hy) hxy
  calc L.length = (L.map pidx).length := (List.length_map L pidx).symm
    _ ≤ Fintype.card (Fin NPROC) := hmap.length_le_card
    _ = NPROC := by simp

theorem chainF_suffix {s : Kernel} :
    ∀ (A : List Int) {B : List Int} {h : Int} {f : Nat},
      chainF s h f = some (A ++ B) → chainF s (B.headD (-1)) f = some B := by
  intro A
  induction A with
  | nil =>
    intro B h f hc
    cases B with
    | nil => exact chainF_neg1 ..
    | cons b B' =>
      cases f with
      | zero => exact absurd (chainF_length hc) (by simp)
      | succ f' =>
        obtain ⟨hb, _, _⟩ := chainF_cons (by simpa using hc)
        subst hb
        simpa using hc
  | cons a A' ih =>
    intro B h f hc
    cases f with
    | zero => exact absurd (chainF_length hc) (by simp)
    | succ f' =>
      obtain ⟨hha, hv, hrest⟩ := chainF_cons (by simpa using hc)
      have hsuf := ih hrest
      exact chainF_exact hsuf (f' + 1) (Nat.le_succ_of_le (chainF_length hsuf))

theorem nodup_middle {L₁ L₂ : List Int} {x : Int} (hnd : (L₁ ++ L₂).Nodup)
    (hx : x ∉ L₁ ++ L₂) : (L₁ ++ x :: L₂).Nodup := by
  have hx1 : x ∉ L₁ := fun hc => hx (by simp [hc])
  have hx2 : x ∉ L₂ := fun hc => hx (by simp [hc])
  rw [List.nodup_append] at hnd
  rw [List.nodup_append]
  refine ⟨hnd.1, List.nodup_cons.mpr ⟨hx2, hnd.2.1⟩, ?_⟩
  intro a ha hmem
  rcases List.mem_cons.mp hmem with rfl | h2
  · exact hx1 ha
  · exact hnd.2.2 ha h2

theorem chainF_insert_mid {s t : Kernel} {x : Int} (hx : validPid x) :
    ∀ (L₁ : List Int) {B : List Int} {h : Int} {f : Nat},
      chainF s h f = some (L₁ ++ B) →
      x ∉ L₁ ++ B →
      (∀ y ∈ L₁.dropLast, (getP t y).pwait = (getP s y).pwait) →
      (∀ y, L₁.getLast? = some y → (getP t y).pwait = x) →
      (getP t x).pwait = B.headD (-1) →
      (∀ y ∈ B, (getP t y).pwait = (getP s y).pwait) →
      ∀ g, (L₁ ++ x :: B).length ≤ g →
      chainF t (if L₁.isEmpty then x else h) g = some (L₁ ++ x :: B) := by
  intro L₁
  induction L₁ with
  | nil =>
    intro L₂ h f hc _ _ _ hxw hag g hg
    cases g with
    | zero => simp at hg
    | succ g' =>
      simp only [List.isEmpty_nil, if_pos, List.nil_append]
      have hsuf : chainF s (L₂.headD (-1)) f = some L₂ := chainF_suffix [] (by simpa using hc)
      have hsufT : chainF t (L₂.headD (-1)) f = some L₂ := chainF_congr hsuf hag
      have hsufT' : chainF t (L₂.headD (-1)) g' = some L₂ :=
        chainF_exact hsufT g' (by simpa using Nat.le_of_succ_le_succ hg)
      rw [← hxw] at hsufT'
      exact chainF_cons_build hx hsufT'
  | cons a A' ih =>
    intro L₂ h f hc hxm hdrop hlast hxw hag g hg
    cases f with
    | zero => exact absurd (chainF_length hc) (by simp)
    | succ f' =>
      obtain ⟨hha, hva, hrest⟩ := chainF_cons (by simpa using hc)
      cases g with
      | zero => simp at hg
      | succ g' =>
        simp only [List.isEmpty_cons, if_neg]
        subst hha
        have hstep : chainF t (getP t h).pwait g' = some (A' ++ x :: L₂) := by
          cases A' with
          | nil =>
            have hlw : (getP t h).pwait = x := hlast h (by simp)
            rw [hlw]
            have := ih (B := L₂) (h := (getP s h).pwait) (f := f') hrest
              (fun hc' => hxm (List.mem_cons_of_mem _ (by simpa using hc')))
              (by simp) (by simp) hxw hag g'
              (by simpa using Nat.le_of_succ_le_succ hg)
            simpa using this
          | cons b A'' =>
            have hdl : (h :: b :: A'').dropLast = h :: (b :: A'').dropLast :=
              List.dropLast_cons₂ ..
            have hwa : (getP t h).pwait = (getP s h).pwait := by
              refine hdrop h ?_
              rw [hdl]
              simp
            rw [hwa]
            have := ih (B := L₂) (h := (getP s h).pwait) (f := f') hrest
              (fun hc' => hxm (List.mem_cons_of_mem _ hc'))
              (fun y hy => hdrop y (by rw [hdl]; exact List.mem_cons_of_mem _ hy))
              (fun y hy => hlast y (by rw [List.getLast?_cons_cons]; exact hy))
              hxw hag g' (by simpa using Nat.le_of_succ_le_succ hg)
            simpa using this
        exact chainF_cons_build hva hstep


theorem getP_setP_field (s : Kernel) (p q : Int) (f : PCB → PCB) (g : PCB → Int)
    (hf : ∀ e, g (f e) = g e) : g (getP (setP s p f) q) = g (getP s q) := by
  rw [getP_setP]
  split
  · next h => rw [hf, show getP s p = getP s q from congrArg s.proctab h.symm]
  · rfl

theorem getP_setP_pwait_pstate (s : Kernel) (p q v : Int) :
    (getP (setP s p (fun e => { e with pwait := v })) q).pstate = (getP s q).pstate :=
  getP_setP_field s p q _ PCB.pstate (fun e => rfl)

theorem getP_setP_pwait_pprio (s : Kernel) (p q v : Int) :
    (getP (setP s p (fun e => { e with pwait := v })) q).pprio = (getP s q).pprio :=
  getP_setP_field s p q _ PCB.pprio (fun e => rfl)

theorem semChain_untouched {s t : Kernel} {sem : Int}
    (hq : getSQ t sem = getSQ s sem) (hwf : semQWF s sem)
    (hag : ∀ y ∈ semChainList s sem, (getP t y).pwait = (getP s y).pwait) :
    semChainList t sem = semChainList s sem ∧ semQWF t sem := by
  obtain ⟨hch, hnd, hnil, htl⟩ := hwf
  have h2 : chainF t (getSQ t sem).head (NPROC + 1) = some (semChainList s sem) := by
    rw [hq]
    exact chainF_congr hch hag
  have h3 : semChainList t sem = semChainList s sem := by
    show (chainF t (getSQ t sem).head (NPROC + 1)).getD [] = _
    rw [h2]
    rfl
  refine ⟨h3, ?_, ?_, ?_, ?_⟩
  · rw [h3]; exact h2
  · rw [h3]; exact hnd
  · rw [h3, hq]; exact hnil
  · rw [h3, hq]; exact htl

theorem readyChain_untouched {s t : Kernel}
    (hh : t.readyHead = s.readyHead) (hwf : readyWF s)
    (hag : ∀ y ∈ readyChainList s, (getP t y).pwait = (getP s y).pwait) :
    readyChainList t = readyChainList s ∧ readyWF t := by
  obtain ⟨hch, hnd⟩ := hwf
  have h2 : chainF t t.readyHead (NPROC + 1) = some (readyChainList s) := by
    rw [hh]
    exact chainF_congr hch hag
  have h3 : readyChainList t = readyChainList s := by
    show (chainF t t.readyHead (NPROC + 1)).getD [] = _
    rw [h2]
    rfl
  exact ⟨h3, by rw [readyWF, h3]; exact ⟨h2, hnd⟩⟩

theorem semChainList_valid {s : Kernel} {sem : Int} (hwf : semQWF s sem) :
    ∀ x ∈ semChainList s sem, validPid x :=
  chainF_valid hwf.1

theorem readyChainList_valid {s : Kernel} (hwf : readyWF s) :
    ∀ x ∈ readyChainList s, validPid x :=
  chainF_valid hwf.1

theorem dequeue_sem_nil (s : Kernel) (sem : Int) (h : (getSQ s sem).head = -1) :
    dequeue_sem s sem = (s, -1) := by
  unfold dequeue_sem
  simp [h]

theorem semChainList_nil_head {s : Kernel} {sem : Int} (hwf : semQWF s sem)
    (h : semChainList s sem = []) : (getSQ s sem).head = -1 :=
  chainF_eq_nil (h ▸ hwf.1)

theorem dequeue_sem_cons {s : Kernel} {sem x : Int} {L : List Int}
    (hwf : semQWF s sem) (hch : semChainList s sem = x :: L) :
    (dequeue_sem s sem).2 = x ∧
    semChainList (dequeue_sem s sem).1 sem = L ∧
    semQWF (dequeue_sem s sem).1 sem ∧
    getP (dequeue_sem s sem).1 x = { getP s x with pwait := -1 } ∧
    (∀ q, validPid q → q ≠ x → getP (dequeue_sem s sem).1 q = getP s q) ∧
    (∀ q, (getP (dequeue_sem s sem).1 q).pstate = (getP s q).pstate) ∧
    (dequeue_sem s sem).1.semtab = s.semtab ∧
    (dequeue_sem s sem).1.currpid = s.currpid ∧
    (dequeue_sem s sem).1.readyHead = s.readyHead ∧
    (dequeue_sem s sem).1.semQueues = Function.update s.semQueues (sidx sem)
      ⟨(getP s x).pwait, if (getP s x).pwait = -1 then -1 else (getSQ s sem).tail⟩ := by
  obtain ⟨hch0, hnd, hnil, htl⟩ := hwf
  rw [hch] at hch0 hnd htl
  obtain ⟨hhd, hvx, hrest⟩ := chainF_cons hch0
  have hxnL : x ∉ L := (List.nodup_cons.mp hnd).1
  have hLnd : L.Nodup := (List.nodup_cons.mp hnd).2
  set s2 := setP (setSQ s sem ⟨(getP s x).pwait,
      if (getP s x).pwait = -1 then -1 else (getSQ s sem).tail⟩) x
      (fun e => { e with pwait := -1 }) with hs2
  have heq : dequeue_sem s sem = (s2, x) := by
    unfold dequeue_sem
    simp only [hhd]
    rw [if_neg (validPid_ne_neg1 hvx), hs2]
  have heq1 : (dequeue_sem s sem).1 = s2 := by rw [heq]
  have heq2 : (dequeue_sem s sem).2 = x := by rw [heq]
  rw [heq1, heq2]
  have hagL : ∀ y ∈ L, (getP s2 y).pwait = (getP s y).pwait := by
    intro y hy
    rw [hs2, getP_setP_ne hvx (chainF_valid hrest y hy) (fun hc => hxnL (hc ▸ hy))]
    rfl
  have hchain2 : chainF s2 (getP s x).pwait (NPROC + 1) = some L :=
    chainF_congr (chainF_exact hrest (NPROC + 1) (Nat.le_succ_of_le (chainF_length hrest))) hagL
  have hgsq : getSQ s2 sem = ⟨(getP s x).pwait,
      if (getP s x).pwait = -1 then -1 else (getSQ s sem).tail⟩ := by
    rw [hs2, getSQ_setP]
    exact getSQ_setSQ_self ..
  have hlist2 : semChainList s2 sem = L := by
    show (chainF s2 (getSQ s2 sem).head (NPROC + 1)).getD [] = L
    rw [hgsq]
    show (chainF s2 (getP s x).pwait (NPROC + 1)).getD [] = L
    rw [hchain2]
    rfl
  refine ⟨rfl, hlist2, ⟨?_, ?_, ?_, ?_⟩, ?_, ?_, ?_, ?_, ?_, ?_, ?_⟩
  · rw [hlist2, hgsq]
    exact hchain2
  · rw [hlist2]; exact hLnd
  · rw [hlist2, hgsq]
    intro hL0
    subst hL0
    have hw1 : (getP s x).pwait = -1 := chainF_eq_nil hrest
    simp [hw1]
  · rw [hlist2, hgsq]
    intro hLne
    have hnh : (getP s x).pwait ≠ -1 := by
      cases L with
      | nil => exact absurd rfl hLne
      | cons c L2 =>
        obtain ⟨hc, hvc, _⟩ := chainF_cons hrest
        rw [hc]
        exact validPid_ne_neg1 hvc
    simp only [if_neg hnh]
    rw [htl (by simp)]
    cases L with
    | nil => exact absurd rfl hLne
    | cons c L2 => rw [List.getLast?_cons_cons]
  · rw [hs2, getP_setP_self]
    rfl
  · intro q hq hqx
    rw [hs2, getP_setP_ne hvx hq hqx]
    rfl
  · intro q
    rw [hs2, getP_setP_pwait_pstate, getP_setSQ]
  · rw [hs2]
    rfl
  · rw [hs2]
    rfl
  · rw [hs2]
    rfl
  · rw [hs2]
    rfl

theorem enqueue_sem_spec {s : Kernel} {sem x : Int} (hx : validPid x)
    (hwf : semQWF s sem) (hnot : x ∉ semChainList s sem) :
    semChainList (enqueue_sem s sem x) sem = semChainList s sem ++ [x] ∧
    semQWF (enqueue_sem s sem x) sem ∧
    getP (enqueue_sem s sem x) x = { getP s x with pwait := -1 } ∧
    (∀ q, validPid q → q ≠ x → q ∉ semChainList s sem →
        getP (enqueue_sem s sem x) q = getP s q) ∧
    (∀ q, (getP (enqueue_sem s sem x) q).pstate = (getP s q).pstate) ∧
    (∀ q, (getP (enqueue_sem s sem x) q).pprio = (getP s q).pprio) ∧
    (enqueue_sem s sem x).semtab = s.semtab ∧
    (enqueue_sem s sem x).currpid = s.currpid ∧
    (enqueue_sem s sem x).readyHead = s.readyHead := by
  obtain ⟨hch, hnd, hnil, htl⟩ := hwf
  have hvL : ∀ y ∈ semChainList s sem, validPid y := chainF_valid hch
  by_cases htail : (getSQ s sem).tail = -1
  · -- empty FIFO branch of enqueue_sem
    have hLnil : semChainList s sem = [] := by
      by_contra hne
      have h1 := htl hne
      have h2 : (semChainList s sem).getLast?.getD (-1) ∈ semChainList s sem := by
        rw [List.getLast?_eq_getLast_of_ne_nil hne]
        simpa using List.getLast_mem hne
      rw [← h1, htail] at h2
      exact absurd rfl (validPid_ne_neg1 (hvL _ h2))
    have heq : enqueue_sem s sem x =
        setP (setSQ s sem ⟨x, x⟩) x (fun e => { e with pwait := -1 }) := by
      unfold enqueue_sem
      rw [if_pos htail]
    rw [heq]
    set s2 := setP (setSQ s sem ⟨x, x⟩) x (fun e => { e with pwait := -1 }) with hs2
    have hgsq : getSQ s2 sem = ⟨x, x⟩ := by
      rw [hs2, getSQ_setP]
      exact getSQ_setSQ_self ..
    have hpx : getP s2 x = { getP s x with pwait := -1 } := by
      rw [hs2, getP_setP_self]
      rfl
    have hchain2 : chainF s2 x (NPROC + 1) = some [x] := by
      refine chainF_cons_build hx ?_
      rw [hpx]
      exact chainF_neg1 ..
    have hlist2 : semChainList s2 sem = [x] := by
      show (chainF s2 (getSQ s2 sem).head (NPROC + 1)).getD [] = [x]
      rw [hgsq]
      show (chainF s2 x (NPROC + 1)).getD [] = [x]
      rw [hchain2]
      rfl
    refine ⟨by rw [hlist2, hLnil]; rfl, ⟨?_, ?_, ?_, ?_⟩, hpx, ?_, ?_, ?_, rfl, rfl, rfl⟩
    · rw [hlist2, hgsq]; exact hchain2
    · rw [hlist2]; simp
    · rw [hlist2]; simp
    · rw [hlist2, hgsq]; simp
    · intro q hq hqx _
      rw [hs2, getP_setP_ne hx hq hqx]
      rfl
    · intro q
      rw [hs2, getP_setP_pwait_pstate, getP_setSQ]
    · intro q
      rw [hs2, getP_setP_pwait_pprio, getP_setSQ]
  · -- nonempty FIFO branch of enqueue_sem
    have hLne : semChainList s sem ≠ [] := by
      intro hc
      exact htail (hnil hc).2
    have hlastmem : (semChainList s sem).getLast?.getD (-1) ∈ semChainList s sem := by
      rw [List.getLast?_eq_getLast_of_ne_nil hLne]
      simpa using List.getLast_mem hLne
    have htlv : validPid (getSQ s sem).tail := by
      rw [htl hLne]
      exact hvL _ hlastmem
    have htlmem : (getSQ s sem).tail ∈ semChainList s sem := by
      rw [htl hLne]
      exact hlastmem
    have htlx : (getSQ s sem).tail ≠ x := fun hc => hnot (hc ▸ htlmem)
    have heq : enqueue_sem s sem x =
        setP (setSQ (setP s (getSQ s sem).tail (fun e => { e with pwait := x })) sem
          ⟨(getSQ s sem).head, x⟩) x (fun e => { e with pwait := -1 }) := by
      unfold enqueue_sem
      rw [if_neg htail]
      rfl
    rw [heq]
    set s2 := setP (setSQ (setP s (getSQ s sem).tail (fun e => { e with pwait := x })) sem
        ⟨(getSQ s sem).head, x⟩) x (fun e => { e with pwait := -1 }) with hs2
    have hgsq : getSQ s2 sem = ⟨(getSQ s sem).head, x⟩ := by
      rw [hs2, getSQ_setP]
      exact getSQ_setSQ_self ..
    have hpx : getP s2 x = { getP s x with pwait := -1 } := by
      rw [hs2, getP_setP_self]
      show ({ getP (setP s (getSQ s sem).tail (fun e => { e with pwait := x })) x
        with pwait := (-1 : Int) }) = _
      rw [getP_setP_ne htlv hx (fun hc => htlx hc.symm)]
    have hframe : ∀ q, validPid q → q ≠ x → q ≠ (getSQ s sem).tail →
        getP s2 q = getP s q := by
      intro q hq hqx hqt
      rw [hs2, getP_setP_ne hx hq hqx]
      show getP (setP s (getSQ s sem).tail (fun e => { e with pwait := x })) q = getP s q
      rw [getP_setP_ne htlv hq hqt]
    have hptl : (getP s2 (getSQ s sem).tail).pwait = x := by
      rw [hs2, getP_setP_ne hx htlv htlx]
      show (getP (setP s (getSQ s sem).tail (fun e => { e with pwait := x }))
        (getSQ s sem).tail).pwait = x
      rw [getP_setP_self]
    have hdroplast : ∀ y ∈ (semChainList s sem).dropLast,
        (getP s2 y).pwait = (getP s y).pwait := by
      intro y hy
      have hymem : y ∈ semChainList s sem := List.dropLast_subset _ hy
      have hyt : y ≠ (getSQ s sem).tail := by
        intro hc
        have hsplit : (semChainList s sem).dropLast ++
            [(semChainList s sem).getLast hLne] = semChainList s sem :=
          List.dropLast_append_getLast hLne
        have hnd2 := hnd
        rw [← hsplit, List.nodup_append] at hnd2
        refine hnd2.2.2 hy ?_
        have hgl : (semChainList s sem).getLast hLne = (getSQ s sem).tail := by
          rw [htl hLne, List.getLast?_eq_getLast_of_ne_nil hLne]
          rfl
        simp [hgl, hc]
      rw [hframe y (hvL y hymem) (fun hc => hnot (hc ▸ hymem)) hyt]
    have hins := chainF_insert_mid (t := s2) hx (semChainList s sem)
      (B := []) (h := (getSQ s sem).head) (f := NPROC + 1)
      (by simpa using hch) (by simpa using hnot) hdroplast
      (fun y hy => by
        have hyt : y = (getSQ s sem).tail := by
          rw [htl hLne, hy]
          rfl
        rw [hyt]
        exact hptl)
      (by rw [hpx]; rfl) (by simp)
      (NPROC + 1)
      (by
        have hlen : (semChainList s sem ++ [x]).length ≤ NPROC := by
          refine nodup_valid_length_le
            (by simpa using nodup_middle (by simpa using hnd) (by simpa using hnot)) ?_
          intro y hy
          rcases List.mem_append.mp hy with h1 | h2
          · exact hvL y h1
          · rw [List.mem_singleton.mp h2]
            exact hx
        simpa using Nat.le_succ_of_le hlen)
    rw [if_neg (by simpa using hLne)] at hins
    have hlist2 : semChainList s2 sem = semChainList s sem ++ [x] := by
      show (chainF s2 (getSQ s2 sem).head (NPROC + 1)).getD [] = _
      rw [hgsq]
      show (chainF s2 (getSQ s sem).head (NPROC + 1)).getD [] = _
      rw [show semChainList s sem ++ [x] = semChainList s sem ++ x :: [] from rfl]
      rw [hins]
      rfl
    refine ⟨hlist2, ⟨?_, ?_, ?_, ?_⟩, hpx, ?_, ?_, ?_, rfl, rfl, rfl⟩
    · rw [hlist2, hgsq]
      simpa using hins
    · rw [hlist2]
      simpa using nodup_middle (by simpa using hnd) (by simpa using hnot)
    · rw [hlist2]
      simp
    · rw [hlist2, hgsq]
      intro _
      simp
    · intro q hq hqx hqm
      exact hframe q hq hqx (fun hc => hqm (hc ▸ htlmem))
    · intro q
      rw [hs2, getP_setP_pwait_pstate, getP_setSQ, getP_setP_pwait_pstate]
    · intro q
      rw [hs2, getP_setP_pwait_pprio, getP_setSQ, getP_setP_pwait_pprio]


theorem enqRwalk_spec (s : Kernel) (prio : Int) :
    ∀ (L : List Int) (f : Nat) (prev curr : Int) (fuel : Nat),
      chainF s curr f = some L → L.length < fuel →
      enqRwalk s prio prev curr fuel =
        ((L.takeWhile (fun y => decide (prio ≤ (getP s y).pprio))).getLastD prev,
         (L.dropWhile (fun y => decide (prio ≤ (getP s y).pprio))).headD (-1)) := by
  intro L
  induction L with
  | nil =>
    intro f prev curr fuel hch hlen
    have hc : curr = -1 := chainF_eq_nil hch
    subst hc
    cases fuel with
    | zero => simp at hlen
    | succ g => simp [enqRwalk]
  | cons a L' ih =>
    intro f prev curr fuel hch hlen
    cases f with
    | zero => exact absurd (chainF_length hch) (by simp)
    | succ f' =>
      obtain ⟨hca, hva, hrest⟩ := chainF_cons hch
      subst hca
      cases fuel with
      | zero => simp at hlen
      | succ g =>
        by_cases hp : prio ≤ (getP s curr).pprio
        · have hstep : enqRwalk s prio prev curr (g + 1) =
              enqRwalk s prio curr (getP s curr).pwait g := by
            simp [enqRwalk, validPid_ne_neg1 hva, hp]
          rw [hstep, ih f' curr (getP s curr).pwait g hrest (by simpa using hlen)]
          rw [List.takeWhile_cons, List.dropWhile_cons]
          simp only [hp, decide_True, if_true]
          rw [List.getLastD_cons]
        · have hstep : enqRwalk s prio prev curr (g + 1) = (prev, curr) := by
            simp [enqRwalk, hp]
          rw [hstep, List.takeWhile_cons, List.dropWhile_cons]
          simp [hp]

theorem insertAfterGE_eq (s : Kernel) (prio pid : Int) (L : List Int) :
    insertAfterGE s prio pid L =
      L.takeWhile (fun y => decide (prio ≤ (getP s y).pprio)) ++
        pid :: L.dropWhile (fun y => decide (prio ≤ (getP s y).pprio)) := by
  induction L with
  | nil => simp [insertAfterGE]
  | cons a L' ih =>
    rw [List.takeWhile_cons, List.dropWhile_cons]
    by_cases hp : prio ≤ (getP s a).pprio
    · simp [insertAfterGE, hp, ih]
    · simp [insertAfterGE, hp]

theorem mem_insertAfterGE {s : Kernel} {prio pid q : Int} {L : List Int}
    (h : q ∈ insertAfterGE s prio pid L) : q ∈ L ∨ q = pid := by
  rw [insertAfterGE_eq] at h
  rcases List.mem_append.mp h with h1 | h2
  · exact Or.inl (List.takeWhile_subset _ h1)
  · rcases List.mem_cons.mp h2 with rfl | h3
    · exact Or.inr rfl
    · exact Or.inl (List.dropWhile_subset _ h3)

theorem insertAfterGE_congr {s t : Kernel} {prio pid : Int} {L : List Int}
    (hag : ∀ y ∈ L, (getP t y).pprio = (getP s y).pprio) :
    insertAfterGE t prio pid L = insertAfterGE s prio pid L := by
  induction L with
  | nil => rfl
  | cons a L' ih =>
    simp only [insertAfterGE, hag a (by simp)]
    split
    · rw [ih (fun y hy => hag y (by simp [hy]))]
    · rfl


theorem getP_ext {t u : Kernel} (hp : t.proctab = u.proctab) (q : Int) :
    getP t q = getP u q := congrFun hp (pidx q)

theorem chain_ext {t u : Kernel} (hp : t.proctab = u.proctab) :
    ∀ (f : Nat) (p : Int), chainF t p f = chainF u p f := by
  intro f
  induction f with
  | zero => intro p; rfl
  | succ g ih =>
    intro p
    by_cases hn : p = -1
    · simp [chainF, hn]
    by_cases hv : validPid p
    · simp only [chainF, if_neg hn, if_pos hv]
      rw [getP_ext hp, ih]
    · simp [chainF, hn, hv]

theorem readyChainList_ext {t u : Kernel} (hp : t.proctab = u.proctab)
    (hh : t.readyHead = u.readyHead) : readyChainList t = readyChainList u := by
  unfold readyChainList
  rw [hh, chain_ext hp]

theorem readyWF_ext {t u : Kernel} (hp : t.proctab = u.proctab)
    (hh : t.readyHead = u.readyHead) (hwf : readyWF u) : readyWF t := by
  have h1 := readyChainList_ext hp hh
  unfold readyWF at hwf ⊢
  rw [h1, hh, chain_ext hp]
  exact hwf

theorem semChainList_ext {t u : Kernel} (hp : t.proctab = u.proctab)
    (hq : t.semQueues = u.semQueues) (sem : Int) :
    semChainList t sem = semChainList u sem := by
  unfold semChainList getSQ
  rw [hq, chain_ext hp]

theorem semQWF_ext {t u : Kernel} (hp : t.proctab = u.proctab)
    (hq : t.semQueues = u.semQueues) {sem : Int} (hwf : semQWF u sem) :
    semQWF t sem := by
  have h1 := semChainList_ext hp hq sem
  unfold semQWF at hwf ⊢
  unfold getSQ
  rw [h1, hq, chain_ext hp]
  exact hwf

theorem dequeue_ready_nil (s : Kernel) (h : s.readyHead = -1) :
    dequeue_ready s = (s, -1) := by
  unfold dequeue_ready
  simp [h]

theorem dequeue_ready_cons {s : Kernel} {x : Int} {L : List Int}
    (hwf : readyWF s) (hch : readyChainList s = x :: L) :
    (dequeue_ready s).2 = x ∧
    readyChainList (dequeue_ready s).1 = L ∧
    readyWF (dequeue_ready s).1 ∧
    getP (dequeue_ready s).1 x = { getP s x with pwait := -1 } ∧
    (∀ q, validPid q → q ≠ x → getP (dequeue_ready s).1 q = getP s q) ∧
    (∀ q, (getP (dequeue_ready s).1 q).pstate = (getP s q).pstate) ∧
    (dequeue_ready s).1.currpid = s.currpid ∧
    (dequeue_ready s).1.semtab = s.semtab ∧
    (dequeue_ready s).1.semQueues = s.semQueues := by
  obtain ⟨hch0, hnd⟩ := hwf
  rw [hch] at hch0 hnd
  obtain ⟨hhd, hvx, hrest⟩ := chainF_cons hch0
  have hxnL : x ∉ L := (List.nodup_cons.mp hnd).1
  have hLnd : L.Nodup := (List.nodup_cons.mp hnd).2
  set s2 := setP { s with readyHead := (getP s x).pwait } x
      (fun e => { e with pwait := -1 }) with hs2
  have hxn1 : x ≠ -1 := validPid_ne_neg1 hvx
  have heqA : dequeue_ready s =
      (if s2.readyHead = -1 then { s2 with readyTail := -1 } else s2, x) := by
    unfold dequeue_ready
    rw [← hhd] at hxn1
    simp only [if_neg hxn1]
    rw [hhd, hs2]
  have hproc : (dequeue_ready s).1.proctab = s2.proctab := by
    rw [heqA]
    split <;> rfl
  have hhd2 : (dequeue_ready s).1.readyHead = s2.readyHead := by
    rw [heqA]
    split <;> rfl
  have hagL : ∀ y ∈ L, (getP s2 y).pwait = (getP s y).pwait := by
    intro y hy
    rw [hs2, getP_setP_ne hvx (chainF_valid hrest y hy) (fun hc => hxnL (hc ▸ hy))]
    rfl
  have hchain2 : chainF s2 (getP s x).pwait (NPROC + 1) = some L :=
    chainF_congr (chainF_exact hrest (NPROC + 1)
      (Nat.le_succ_of_le (chainF_length hrest))) hagL
  have hlist2 : readyChainList s2 = L := by
    show (chainF s2 s2.readyHead (NPROC + 1)).getD [] = L
    rw [show s2.readyHead = (getP s x).pwait from rfl, hchain2]
    rfl
  have hlist3 : readyChainList (dequeue_ready s).1 = L := by
    rw [readyChainList_ext hproc hhd2, hlist2]
  refine ⟨by rw [heqA], hlist3, ?_, ?_, ?_, ?_, ?_, ?_, ?_⟩
  · refine readyWF_ext hproc hhd2 ?_
    refine ⟨?_, ?_⟩
    · rw [hlist2, show s2.readyHead = (getP s x).pwait from rfl]
      exact hchain2
    · rw [hlist2]; exact hLnd
  · rw [getP_ext hproc, hs2, getP_setP_self]
    rfl
  · intro q hq hqx
    rw [getP_ext hproc, hs2, getP_setP_ne hvx hq hqx]
    rfl
  · intro q
    rw [getP_ext hproc, hs2, getP_setP_pwait_pstate]
    rfl
  · rw [heqA]; split <;> rfl
  · rw [heqA]; split <;> rfl
  · rw [heqA]; split <;> rfl


theorem enqueue_ready_spec {s : Kernel} {pid : Int} (hv : validPid pid)
    (hwf : readyWF s) (hnot : pid ∉ readyChainList s) :
    readyChainList (enqueue_ready s pid) =
      insertAfterGE s ((getP s pid).pprio) pid (readyChainList s) ∧
    readyWF (enqueue_ready s pid) ∧
    (∀ q, validPid q → q ≠ pid → q ∉ readyChainList s →
        getP (enqueue_ready s pid) q = getP s q) ∧
    (∀ q, (getP (enqueue_ready s pid) q).pstate = (getP s q).pstate) ∧
    (∀ q, (getP (enqueue_ready s pid) q).pprio = (getP s q).pprio) ∧
    (enqueue_ready s pid).currpid = s.currpid ∧
    (enqueue_ready s pid).semtab = s.semtab ∧
    (enqueue_ready s pid).semQueues = s.semQueues := by
  obtain ⟨hch, hnd⟩ := hwf
  have hvL := chainF_valid hch
  have hlen8 : (readyChainList s).length ≤ NPROC := nodup_valid_length_le hnd hvL
  have hpc : enqRwalk s ((getP s pid).pprio) (-1) s.readyHead (NPROC + 1) =
      (((readyChainList s).takeWhile
          (fun y => decide ((getP s pid).pprio ≤ (getP s y).pprio))).getLastD (-1),
       ((readyChainList s).dropWhile
          (fun y => decide ((getP s pid).pprio ≤ (getP s y).pprio))).headD (-1)) :=
    enqRwalk_spec s _ (readyChainList s) (NPROC + 1) (-1) s.readyHead (NPROC + 1) hch
      (by omega)
  set tw := (readyChainList s).takeWhile
      (fun y => decide ((getP s pid).pprio ≤ (getP s y).pprio)) with htwdef
  set dw := (readyChainList s).dropWhile
      (fun y => decide ((getP s pid).pprio ≤ (getP s y).pprio)) with hdwdef
  have hsplit : tw ++ dw = readyChainList s := List.takeWhile_append_dropWhile ..
  have htw_sub : ∀ y ∈ tw, y ∈ readyChainList s := by
    intro y hy
    rw [← hsplit]
    exact List.mem_append_left _ hy
  have hdw_sub : ∀ y ∈ dw, y ∈ readyChainList s := by
    intro y hy
    rw [← hsplit]
    exact List.mem_append_right _ hy
  have hins_eq : insertAfterGE s ((getP s pid).pprio) pid (readyChainList s) =
      tw ++ pid :: dw := insertAfterGE_eq ..
  have hchsp : chainF s s.readyHead (NPROC + 1) = some (tw ++ dw) := by
    rw [hsplit]
    exact hch
  have hndsp : (tw ++ dw).Nodup := by rw [hsplit]; exact hnd
  have hnotsp : pid ∉ tw ++ dw := by rw [hsplit]; exact hnot
  have hlen9 : (tw ++ pid :: dw).length ≤ NPROC + 1 := by
    have : (tw ++ dw).length ≤ NPROC := by rw [hsplit]; exact hlen8
    simp only [List.length_append, List.length_cons] at this ⊢
    omega
  by_cases hprev : tw.getLastD (-1) = -1
  · -- tw must be empty: insertion at the head of the ready list
    have htwnil : tw = [] := by
      by_contra hc
      have h1 : tw.getLastD (-1) = tw.getLast hc := by
        rw [List.getLastD_eq_getLast?, List.getLast?_eq_getLast_of_ne_nil hc]
        rfl
      have hmem : tw.getLast hc ∈ tw := List.getLast_mem hc
      have h2 : tw.getLast hc = -1 := by
        rw [← h1]
        exact hprev
      exact absurd h2 (validPid_ne_neg1 (hvL _ (htw_sub _ hmem)))
    have hdweq : dw = readyChainList s := by rw [← hsplit, htwnil]; rfl
    set s1 := setP s pid (fun e => { e with pwait := dw.headD (-1) }) with hs1
    set s2 : Kernel := { s1 with readyHead := pid } with hs2
    have heqA : enqueue_ready s pid =
        if dw.headD (-1) = -1 then { s2 with readyTail := pid } else s2 := by
      simp only [enqueue_ready, hpc]
      rw [if_pos hprev, hs2, hs1]
    have hproc : (enqueue_ready s pid).proctab = s2.proctab := by
      rw [heqA]
      split <;> rfl
    have hhd2 : (enqueue_ready s pid).readyHead = s2.readyHead := by
      rw [heqA]
      split <;> rfl
    have hagdw : ∀ y ∈ dw, (getP s2 y).pwait = (getP s y).pwait := by
      intro y hy
      show (getP s1 y).pwait = _
      rw [hs1, getP_setP_ne hv (hvL y (hdw_sub y hy))
        (fun hc => hnot (hc ▸ hdw_sub y hy))]
    have hpidw : (getP s2 pid).pwait = dw.headD (-1) := by
      show (getP s1 pid).pwait = _
      rw [hs1, getP_setP_self]
    have hchain2 : chainF s2 pid (NPROC + 1) = some (pid :: dw) := by
      refine chainF_cons_build hv ?_
      rw [hpidw]
      have hch2 : chainF s s.readyHead (NPROC + 1) = some ([] ++ dw) := by
        rw [List.nil_append, hdweq]
        exact hch
      have hsufS : chainF s (dw.headD (-1)) (NPROC + 1) = some dw :=
        chainF_suffix (h := s.readyHead) [] hch2
      have := chainF_congr hsufS hagdw
      exact chainF_exact this NPROC (by
        have := chainF_length hsufS
        have h2 : dw.length ≤ NPROC := by
          rw [hdweq]
          exact hlen8
        omega)
    have hlist2 : readyChainList s2 = pid :: dw := by
      show (chainF s2 s2.readyHead (NPROC + 1)).getD [] = _
      rw [show s2.readyHead = pid from rfl, hchain2]
      rfl
    have hlist3 : readyChainList (enqueue_ready s pid) = pid :: dw := by
      rw [readyChainList_ext hproc hhd2, hlist2]
    refine ⟨?_, ?_, ?_, ?_, ?_, ?_, ?_, ?_⟩
    · rw [hlist3, hins_eq, htwnil]
      rfl
    · refine readyWF_ext hproc hhd2 ⟨?_, ?_⟩
      · rw [hlist2, show s2.readyHead = pid from rfl]
        exact hchain2
      · rw [hlist2]
        refine List.nodup_cons.mpr ⟨?_, ?_⟩
        · rw [hdweq]; exact hnot
        · rw [hdweq]; exact hnd
    · intro q hq hqp hqm
      rw [getP_ext hproc]
      show getP s1 q = getP s q
      rw [hs1, getP_setP_ne hv hq hqp]
    · intro q
      rw [getP_ext hproc]
      show (getP s1 q).pstate = _
      rw [hs1, getP_setP_pwait_pstate]
    · intro q
      rw [getP_ext hproc]
      show (getP s1 q).pprio = _
      rw [hs1, getP_setP_pwait_pprio]
    · rw [heqA]; split <;> rfl
    · rw [heqA]; split <;> rfl
    · rw [heqA]; split <;> rfl
  · -- tw nonempty: insertion after the last entry of priority at least prio
    have htwne : tw ≠ [] := by
      intro hc
      rw [hc] at hprev
      exact hprev rfl
    have hlasttw : tw.getLastD (-1) = tw.getLast htwne := by
      rw [List.getLastD_eq_getLast?, List.getLast?_eq_getLast_of_ne_nil htwne]
      rfl
    have hlastmem : tw.getLastD (-1) ∈ tw := by
      rw [hlasttw]
      exact List.getLast_mem _
    have hlastv : validPid (tw.getLastD (-1)) := hvL _ (htw_sub _ hlastmem)
    have hlastpid : tw.getLastD (-1) ≠ pid :=
      fun hc => hnot (hc ▸ htw_sub _ hlastmem)
    set s1 := setP s pid (fun e => { e with pwait := dw.headD (-1) }) with hs1
    set s2 := setP s1 (tw.getLastD (-1)) (fun e => { e with pwait := pid }) with hs2
    have heqA : enqueue_ready s pid =
        if dw.headD (-1) = -1 then { s2 with readyTail := pid } else s2 := by
      simp only [enqueue_ready, hpc]
      rw [if_neg hprev, hs2, hs1]
    have hproc : (enqueue_ready s pid).proctab = s2.proctab := by
      rw [heqA]
      split <;> rfl
    have hhd2 : (enqueue_ready s pid).readyHead = s2.readyHead := by
      rw [heqA]
      split <;> rfl
    have hs2hd : s2.readyHead = s.readyHead := rfl
    have hframe : ∀ q, validPid q → q ≠ pid → q ≠ tw.getLastD (-1) →
        getP s2 q = getP s q := by
      intro q hq hqp hqt
      rw [hs2, getP_setP_ne hlastv hq hqt, hs1, getP_setP_ne hv hq hqp]
    have hpidw : (getP s2 pid).pwait = dw.headD (-1) := by
      rw [hs2, getP_setP_ne hlastv hv (fun hc => hlastpid hc.symm), hs1, getP_setP_self]
    have hlastw : (getP s2 (tw.getLastD (-1))).pwait = pid := by
      rw [hs2, getP_setP_self]
    have hdroplast : ∀ y ∈ tw.dropLast, (getP s2 y).pwait = (getP s y).pwait := by
      intro y hy
      have hymem : y ∈ tw := List.dropLast_subset _ hy
      have hyt : y ≠ tw.getLastD (-1) := by
        intro hc
        have hsplit2 : tw.dropLast ++ [tw.getLast htwne] = tw :=
          List.dropLast_append_getLast htwne
        have hndtw : tw.Nodup := by
          rw [← hsplit] at hnd
          exact (List.nodup_append.mp hnd).1
        rw [← hsplit2, List.nodup_append] at hndtw
        exact hndtw.2.2 hy (by simp [← hlasttw, hc])
      rw [hframe y (hvL y (htw_sub y hymem)) (fun hc => hnot (hc ▸ htw_sub y hymem)) hyt]
    have hagdw : ∀ y ∈ dw, (getP s2 y).pwait = (getP s y).pwait := by
      intro y hy
      have hyt : y ≠ tw.getLastD (-1) := by
        intro hc
        rw [← hsplit] at hnd
        exact (List.nodup_append.mp hnd).2.2 (hc ▸ hlastmem) hy
      rw [hframe y (hvL y (hdw_sub y hy)) (fun hc => hnot (hc ▸ hdw_sub y hy)) hyt]
    have hins := chainF_insert_mid (t := s2) hv tw
      (B := dw) (h := s.readyHead) (f := NPROC + 1)
      hchsp hnotsp hdroplast
      (fun y hy => by
        have : y = tw.getLastD (-1) := by
          rw [List.getLastD_eq_getLast?, hy]
          rfl
        rw [this]
        exact hlastw)
      (by rw [hpidw]) hagdw
      (NPROC + 1) hlen9
    rw [if_neg (by simpa using htwne)] at hins
    have hlist2 : readyChainList s2 = tw ++ pid :: dw := by
      show (chainF s2 s2.readyHead (NPROC + 1)).getD [] = _
      rw [hs2hd, hins]
      rfl
    have hlist3 : readyChainList (enqueue_ready s pid) = tw ++ pid :: dw := by
      rw [readyChainList_ext hproc hhd2, hlist2]
    refine ⟨?_, ?_, ?_, ?_, ?_, ?_, ?_, ?_⟩
    · rw [hlist3, hins_eq]
    · refine readyWF_ext hproc hhd2 ⟨?_, ?_⟩
      · rw [hlist2, hs2hd]
        exact hins
      · rw [hlist2]
        exact nodup_middle hndsp hnotsp
    · intro q hq hqp hqm
      rw [getP_ext hproc]
      exact hframe q hq hqp (fun hc => hqm (hc ▸ htw_sub _ hlastmem))
    · intro q
      rw [getP_ext hproc, hs2, getP_setP_pwait_pstate, hs1, getP_setP_pwait_pstate]
    · intro q
      rw [getP_ext hproc, hs2, getP_setP_pwait_pprio, hs1, getP_setP_pwait_pprio]
    · rw [heqA]; split <;> rfl
    · rw [heqA]; split <;> rfl
    · rw [heqA]; split <;> rfl


theorem getP_setP_pstate_pwait (s : Kernel) (p q v : Int) :
    (getP (setP s p (fun e => { e with pstate := v })) q).pwait = (getP s q).pwait :=
  getP_setP_field s p q _ PCB.pwait (fun _ => rfl)

theorem getP_setP_pstate_pprio (s : Kernel) (p q v : Int) :
    (getP (setP s p (fun e => { e with pstate := v })) q).pprio = (getP s q).pprio :=
  getP_setP_field s p q _ PCB.pprio (fun _ => rfl)

theorem validPid_zero : validPid 0 := by decide

theorem enqueue_ready_scalars (s : Kernel) (pid : Int) :
    (enqueue_ready s pid).currpid = s.currpid ∧
    (enqueue_ready s pid).semtab = s.semtab ∧
    (enqueue_ready s pid).semQueues = s.semQueues ∧
    (enqueue_ready s pid).queuetab = s.queuetab ∧
    (enqueue_ready s pid).qfree = s.qfree ∧
    (enqueue_ready s pid).sleepq = s.sleepq ∧
    (enqueue_ready s pid).slnempty = s.slnempty ∧
    (enqueue_ready s pid).semfree = s.semfree ∧
    (enqueue_ready s pid).nsemUsed = s.nsemUsed ∧
    (enqueue_ready s pid).pidInUse = s.pidInUse := by
  simp only [enqueue_ready]
  split_ifs <;> simp [setP]

theorem dequeue_ready_scalars (s : Kernel) :
    (dequeue_ready s).1.currpid = s.currpid ∧
    (dequeue_ready s).1.semtab = s.semtab ∧
    (dequeue_ready s).1.semQueues = s.semQueues ∧
    (dequeue_ready s).1.queuetab = s.queuetab ∧
    (dequeue_ready s).1.qfree = s.qfree ∧
    (dequeue_ready s).1.sleepq = s.sleepq ∧
    (dequeue_ready s).1.slnempty = s.slnempty ∧
    (dequeue_ready s).1.semfree = s.semfree ∧
    (dequeue_ready s).1.nsemUsed = s.nsemUsed ∧
    (dequeue_ready s).1.pidInUse = s.pidInUse := by
  simp only [dequeue_ready]
  split_ifs <;> simp [setP]

theorem reschedPick_scalars (s : Kernel) :
    (reschedPick s).semtab = s.semtab ∧
    (reschedPick s).semQueues = s.semQueues ∧
    (reschedPick s).queuetab = s.queuetab ∧
    (reschedPick s).qfree = s.qfree ∧
    (reschedPick s).sleepq = s.sleepq ∧
    (reschedPick s).slnempty = s.slnempty ∧
    (reschedPick s).semfree = s.semfree ∧
    (reschedPick s).nsemUsed = s.nsemUsed ∧
    (reschedPick s).pidInUse = s.pidInUse := by
  simp only [reschedPick, dequeue_ready]
  split_ifs <;> simp [setP]

theorem resched_scalars (s : Kernel) :
    (resched s).semtab = s.semtab ∧
    (resched s).semQueues = s.semQueues ∧
    (resched s).queuetab = s.queuetab ∧
    (resched s).qfree = s.qfree ∧
    (resched s).sleepq = s.sleepq ∧
    (resched s).slnempty = s.slnempty ∧
    (resched s).semfree = s.semfree ∧
    (resched s).nsemUsed = s.nsemUsed ∧
    (resched s).pidInUse = s.pidInUse := by
  simp only [resched]
  split_ifs with hA hB
  · have h1 := reschedPick_scalars (enqueue_ready
      (setP s s.currpid (fun e => { e with pstate := PR_READY })) s.currpid)
    have h2 := enqueue_ready_scalars
      (setP s s.currpid (fun e => { e with pstate := PR_READY })) s.currpid
    refine ⟨?_, ?_, ?_, ?_, ?_, ?_, ?_, ?_, ?_⟩ <;>
      simp only [h1.1, h1.2.1, h1.2.2.1, h1.2.2.2.1, h1.2.2.2.2.1, h1.2.2.2.2.2.1,
        h1.2.2.2.2.2.2.1, h1.2.2.2.2.2.2.2.1, h1.2.2.2.2.2.2.2.2,
        h2.2.1, h2.2.2.1, h2.2.2.2.1, h2.2.2.2.2.1, h2.2.2.2.2.2.1,
        h2.2.2.2.2.2.2.1, h2.2.2.2.2.2.2.2.1, h2.2.2.2.2.2.2.2.2.1,
        h2.2.2.2.2.2.2.2.2.2, setP_semtab, setP_semQueues, setP_queuetab, setP_qfree,
        setP_sleepq, setP_slnempty, setP_semfree, setP_nsemUsed, setP_pidInUse]
  · exact ⟨rfl, rfl, rfl, rfl, rfl, rfl, rfl, rfl, rfl⟩
  · exact reschedPick_scalars s

theorem reschedPick_nil {s : Kernel} (hwf : readyWF s) (hch : readyChainList s = []) :
    reschedPick s = { setP s 0 (fun e => { e with pstate := PR_CURR }) with currpid := 0 } := by
  have hh : s.readyHead = -1 := chainF_eq_nil (hch ▸ hwf.1)
  simp only [reschedPick]
  rw [dequeue_ready_nil s hh]
  rfl

theorem reschedPick_cons {s : Kernel} {x : Int} {L : List Int}
    (hwf : readyWF s) (hch : readyChainList s = x :: L) :
    (reschedPick s).currpid = x ∧
    readyChainList (reschedPick s) = L ∧
    readyWF (reschedPick s) ∧
    (getP (reschedPick s) x).pstate = PR_CURR ∧
    (∀ q, validPid q → q ≠ x → getP (reschedPick s) q = getP s q) ∧
    (reschedPick s).semtab = s.semtab ∧
    (reschedPick s).semQueues = s.semQueues := by
  obtain ⟨hd2, hl2, hwf2, hx2, hfr2, hps2, hcp2, hst2, hsq2⟩ := dequeue_ready_cons hwf hch
  have hvx : validPid x := by
    refine chainF_valid hwf.1 x ?_
    rw [hch]
    simp
  have heqA : reschedPick s = { setP (dequeue_ready s).1 x
      (fun e => { e with pstate := PR_CURR }) with currpid := x } := by
    simp only [reschedPick, hd2]
    rw [if_neg (validPid_ne_neg1 hvx)]
  have hproc : (reschedPick s).proctab =
      (setP (dequeue_ready s).1 x (fun e => { e with pstate := PR_CURR })).proctab := by
    rw [heqA]
  have hhd : (reschedPick s).readyHead = (dequeue_ready s).1.readyHead := by
    rw [heqA]
    rfl
  have hunt := readyChain_untouched (s := (dequeue_ready s).1) (t := reschedPick s)
    hhd hwf2
    (by
      intro y hy
      rw [getP_ext hproc, getP_setP_pstate_pwait])
  refine ⟨by rw [heqA], ?_, hunt.2, ?_, ?_, ?_, ?_⟩
  · rw [hunt.1, hl2]
  · rw [getP_ext hproc, getP_setP_self]
  · intro q hq hqx
    rw [getP_ext hproc, getP_setP_ne hvx hq hqx]
    exact hfr2 q hq hqx
  · rw [heqA]
    show (setP (dequeue_ready s).1 x
      (fun e => { e with pstate := PR_CURR })).semtab = s.semtab
    rw [setP_semtab]
    exact hst2
  · rw [heqA]
    show (setP (dequeue_ready s).1 x
      (fun e => { e with pstate := PR_CURR })).semQueues = s.semQueues
    rw [setP_semQueues]
    exact hsq2

theorem resched_noSwitch {s : Kernel} (h1 : (getP s s.currpid).pstate = PR_CURR)
    (h2 : s.readyHead = -1 ∨ ¬((getP s s.currpid).pprio < (getP s s.readyHead).pprio)) :
    resched s = s := by
  simp only [resched]
  rw [if_pos h1, if_neg (by rcases h2 with h | h <;> simp [h])]

theorem resched_preempt {s : Kernel} (h1 : (getP s s.currpid).pstate = PR_CURR)
    (h2 : s.readyHead ≠ -1)
    (h3 : (getP s s.currpid).pprio < (getP s s.readyHead).pprio) :
    resched s = reschedPick (enqueue_ready
      (setP s s.currpid (fun e => { e with pstate := PR_READY })) s.currpid) := by
  simp only [resched]
  rw [if_pos h1, if_pos ⟨h2, h3⟩]

theorem resched_nonCurr {s : Kernel} (h : ¬((getP s s.currpid).pstate = PR_CURR)) :
    resched s = reschedPick s := by
  simp only [resched]
  rw [if_neg h]


theorem readyChainList_head {s : Kernel} (hwf : readyWF s) (h : s.readyHead ≠ -1) :
    ∃ rest, readyChainList s = s.readyHead :: rest := by
  rcases hc : readyChainList s with _ | ⟨y, rest⟩
  · exact absurd (chainF_eq_nil (hc ▸ hwf.1)) h
  · obtain ⟨hy, _, _⟩ := chainF_cons (hc ▸ hwf.1)
    exact ⟨rest, by rw [hy]⟩

theorem self_mem_insertAfterGE (s : Kernel) (prio pid : Int) (l : List Int) :
    pid ∈ insertAfterGE s prio pid l := by
  induction l with
  | nil => simp [insertAfterGE]
  | cons a l' ih =>
    rw [insertAfterGE]
    split
    · simp [ih]
    · simp

theorem resched_preempt_spec {s : Kernel} (hwf : schedWF s)
    (h1 : (getP s s.currpid).pstate = PR_CURR)
    (h2 : s.readyHead ≠ -1)
    (h3 : (getP s s.currpid).pprio < (getP s s.readyHead).pprio) :
    (resched s).currpid = s.readyHead ∧
    (getP (resched s) s.readyHead).pstate = PR_CURR ∧
    (getP (resched s) s.currpid).pstate = PR_READY ∧
    s.currpid ∈ readyChainList (resched s) ∧
    readyChainList (resched s) =
      List.tail (insertAfterGE s ((getP s s.currpid).pprio) s.currpid (readyChainList s)) ∧
    schedWF (resched s) ∧
    (∀ q, q ∈ readyChainList (resched s) → q ∈ readyChainList s ∨ q = s.currpid) ∧
    (∀ q, validPid q → q ≠ s.currpid → q ∉ readyChainList s →
      getP (resched s) q = getP s q) := by
  obtain ⟨hrwf, hcv, hcnr⟩ := hwf
  obtain ⟨rest, hch⟩ := readyChainList_head hrwf h2
  have hhdmem : s.readyHead ∈ readyChainList s := by
    rw [hch]
    simp
  have hvhd : validPid s.readyHead := chainF_valid hrwf.1 _ hhdmem
  have hhdcur : s.readyHead ≠ s.currpid := fun hc => hcnr (hc ▸ hhdmem)
  have hhdrest : s.readyHead ∉ rest := by
    have := hrwf.2
    rw [hch, List.nodup_cons] at this
    exact this.1
  set s1 := setP s s.currpid (fun e => { e with pstate := PR_READY }) with hs1
  have hag1 : ∀ y, (getP s1 y).pwait = (getP s y).pwait := by
    intro y
    rw [hs1, getP_setP_pstate_pwait]
  have hap1 : ∀ y, (getP s1 y).pprio = (getP s y).pprio := by
    intro y
    rw [hs1, getP_setP_pstate_pprio]
  have hunt1 := readyChain_untouched (s := s) (t := s1) rfl hrwf (fun y _ => hag1 y)
  have hfr1 : ∀ q, validPid q → q ≠ s.currpid → getP s1 q = getP s q := by
    intro q hq hqc
    rw [hs1, getP_setP_ne hcv hq hqc]
  have hcur1 : getP s1 s.currpid = { getP s s.currpid with pstate := PR_READY } := by
    rw [hs1, getP_setP_self]
  set s2 := enqueue_ready s1 s.currpid with hs2
  have hsp2 := @enqueue_ready_spec s1 s.currpid hcv hunt1.2
    (by rw [hunt1.1]; exact hcnr)
  have hch2 : readyChainList s2 = s.readyHead ::
      insertAfterGE s ((getP s s.currpid).pprio) s.currpid rest := by
    rw [hs2]
    rw [hsp2.1, hunt1.1, hch]
    rw [insertAfterGE_congr (s := s) (fun y _ => hap1 y), hap1]
    simp only [insertAfterGE]
    rw [if_pos (le_of_lt h3)]
  have hresced : resched s = reschedPick s2 := by
    rw [resched_preempt h1 h2 h3]
  have hwf2 : readyWF s2 := hsp2.2.1
  have hpick := reschedPick_cons (s := s2) hwf2 hch2
  have htail_eq : insertAfterGE s ((getP s s.currpid).pprio) s.currpid rest =
      List.tail (insertAfterGE s ((getP s s.currpid).pprio) s.currpid
        (readyChainList s)) := by
    rw [hch]
    simp only [insertAfterGE]
    rw [if_pos (le_of_lt h3)]
    rfl
  have hchainR : readyChainList (resched s) =
      insertAfterGE s ((getP s s.currpid).pprio) s.currpid rest := by
    rw [hresced, hpick.2.1]
  have hcurmemR : s.currpid ∈ readyChainList (resched s) := by
    rw [hchainR]
    exact self_mem_insertAfterGE ..
  have hframeR : ∀ q, validPid q → q ≠ s.currpid → q ∉ readyChainList s →
      getP (resched s) q = getP s q := by
    intro q hq hqc hqm
    have hqhd : q ≠ s.readyHead := fun hc => hqm (hc ▸ hhdmem)
    rw [hresced, hpick.2.2.2.2.1 q hq hqhd, hs2,
      hsp2.2.2.1 q hq hqc (by rw [hunt1.1]; exact hqm)]
    exact hfr1 q hq hqc
  refine ⟨?_, ?_, ?_, hcurmemR, by rw [hchainR, htail_eq], ⟨?_, ?_, ?_⟩, ?_, hframeR⟩
  · rw [hresced]
    exact hpick.1
  · rw [hresced]
    exact hpick.2.2.2.1
  · rw [hresced, hpick.2.2.2.2.1 s.currpid hcv (fun hc => hhdcur hc.symm), hs2,
      hsp2.2.2.2.1 s.currpid, hcur1]
  · rw [hresced]
    exact hpick.2.2.1
  · rw [hresced, hpick.1]
    exact hvhd
  · rw [hresced, hpick.1, hpick.2.1]
    intro hc
    rcases mem_insertAfterGE hc with hm | hm
    · exact hhdrest hm
    · exact hhdcur hm
  · intro q hq
    rw [hchainR] at hq
    rcases mem_insertAfterGE hq with hm | hm
    · exact Or.inl (by rw [hch]; exact List.mem_cons_of_mem _ hm)
    · exact Or.inr hm

theorem resched_frame {s : Kernel} (hwf : schedWF s) {q : Int}
    (hq : validPid q) (hq1 : q ≠ s.currpid) (hq2 : q ∉ readyChainList s)
    (hq3 : q ≠ 0) : getP (resched s) q = getP s q := by
  by_cases hcur : (getP s s.currpid).pstate = PR_CURR
  · by_cases hpre : s.readyHead ≠ -1 ∧ (getP s s.currpid).pprio < (getP s s.readyHead).pprio
    · exact (resched_preempt_spec hwf hcur hpre.1 hpre.2).2.2.2.2.2.2.2 q hq hq1 hq2
    · rw [resched_noSwitch hcur (by tauto)]
  · rw [resched_nonCurr hcur]
    rcases hc : readyChainList s with _ | ⟨x, L⟩
    · rw [reschedPick_nil hwf.1 hc]
      show getP (setP s 0 (fun e => { e with pstate := PR_CURR })) q = getP s q
      exact getP_setP_ne validPid_zero hq hq3
    · refine (reschedPick_cons hwf.1 hc).2.2.2.2.1 q hq ?_
      intro hc2
      exact hq2 (hc2 ▸ (hc ▸ List.mem_cons_self x L))

theorem resched_tracks {s : Kernel} (hwf : schedWF s) :
    schedWF (resched s) ∧
    (∀ q, q ∈ readyChainList (resched s) → q ∈ readyChainList s ∨ q = s.currpid) ∧
    ((resched s).currpid ∈ readyChainList s ∨ (resched s).currpid = s.currpid ∨
      (resched s).currpid = 0) := by
  by_cases hcur : (getP s s.currpid).pstate = PR_CURR
  · by_cases hpre : s.readyHead ≠ -1 ∧ (getP s s.currpid).pprio < (getP s s.readyHead).pprio
    · obtain ⟨hc1, _, _, _, _, hc6, hc7, _⟩ := resched_preempt_spec hwf hcur hpre.1 hpre.2
      refine ⟨hc6, hc7, Or.inl ?_⟩
      rw [hc1]
      obtain ⟨rest, hch⟩ := readyChainList_head hwf.1 hpre.1
      rw [hch]
      simp
    · rw [resched_noSwitch hcur (by tauto)]
      exact ⟨hwf, fun q hq => Or.inl hq, Or.inr (Or.inl rfl)⟩
  · rw [resched_nonCurr hcur]
    rcases hc : readyChainList s with _ | ⟨x, L⟩
    · have hh : s.readyHead = -1 := chainF_eq_nil (hc ▸ hwf.1.1)
      rw [reschedPick_nil hwf.1 hc]
      have hproc0 : ({ setP s 0 (fun e => { e with pstate := PR_CURR })
          with currpid := 0 } : Kernel).proctab =
          (setP s 0 (fun e => { e with pstate := PR_CURR })).proctab := rfl
      have hchain0 : readyChainList ({ setP s 0 (fun e => { e with pstate := PR_CURR })
          with currpid := 0 } : Kernel) = readyChainList s := by
        rw [readyChainList_ext hproc0 rfl]
        exact (readyChain_untouched (s := s)
          (t := setP s 0 (fun e => { e with pstate := PR_CURR })) rfl hwf.1
          (fun y _ => by rw [getP_setP_pstate_pwait])).1
      refine ⟨⟨?_, validPid_zero, ?_⟩, ?_, Or.inr (Or.inr rfl)⟩
      · refine readyWF_ext hproc0 rfl ?_
        exact (readyChain_untouched (s := s)
          (t := setP s 0 (fun e => { e with pstate := PR_CURR })) rfl hwf.1
          (fun y _ => by rw [getP_setP_pstate_pwait])).2
      · rw [hchain0]
        simp [hc]
      · intro q hq
        rw [hchain0, hc] at hq
        exact Or.inl hq
    · obtain ⟨hp1, hp2, hp3, _, _, _, _⟩ := reschedPick_cons hwf.1 hc
      have hvx : validPid x := chainF_valid hwf.1.1 x (by rw [hc]; simp)
      have hnd := hwf.1.2
      rw [hc, List.nodup_cons] at hnd
      refine ⟨⟨hp3, by rw [hp1]; exact hvx, ?_⟩, ?_, Or.inl (by rw [hp1]; simp [hc])⟩
      · rw [hp1, hp2]
        exact hnd.1
      · intro q hq
        rw [hp2] at hq
        refine Or.inl ?_
        simp [hc, hq]

theorem resched_schedDisjoint {s : Kernel} {l : List Int} (hwf : schedWF s)
    (hd : schedDisjoint s l) : schedDisjoint (resched s) l := by
  obtain ⟨hwf2, hmem, hcp⟩ := resched_tracks hwf
  intro p hp
  obtain ⟨hp1, hp2, hp3⟩ := hd p hp
  refine ⟨?_, ?_, hp3⟩
  · intro hc
    rcases hcp with h | h | h
    · exact hp2 (hc ▸ h)
    · exact hp1 (hc.trans h)
    · exact hp3 (hc.trans h)
  · intro hc
    rcases hmem p hc with h | h
    · exact hp2 h
    · exact hp1 h

theorem semChain_resched {s : Kernel} {sem : Int} (hwf : schedWF s)
    (hQ : semQWF s sem)
    (hd : ∀ p ∈ semChainList s sem, p ≠ s.currpid ∧ p ∉ readyChainList s ∧ p ≠ 0) :
    semChainList (resched s) sem = semChainList s sem ∧ semQWF (resched s) sem := by
  have hsq : getSQ (resched s) sem = getSQ s sem := by
    unfold getSQ
    rw [(resched_scalars s).2.1]
  refine semChain_untouched hsq hQ ?_
  intro y hy
  obtain ⟨h1, h2, h3⟩ := hd y hy
  rw [resched_frame hwf (chainF_valid hQ.1 y hy) h1 h2 h3]


theorem getS_count_bump (s : Kernel) (x d : Int) :
    (getS (bumpCount s x d) x).count = (getS s x).count + d := by
  rw [getS_bumpCount_self]

theorem getS_queue_bump (s : Kernel) (x d : Int) :
    (getS (bumpCount s x d) x).queue = (getS s x).queue := by
  rw [getS_bumpCount_self]

theorem signal_eq {s : Kernel} {sem : Int} (h1 : ¬(sem < 0 ∨ (NSEM : Int) ≤ sem))
    (h2 : ¬((getS s sem).queue = -1)) :
    signal s sem = (if (signalCore s sem).2 ≠ -1 then resched (signalCore s sem).1
      else (signalCore s sem).1, OK) := by
  unfold signal
  rw [if_neg h1, if_neg h2]
  by_cases hc : (signalCore s sem).2 ≠ -1 <;> simp [hc]

theorem signaln_eq {s : Kernel} {sem n : Int}
    (h1 : ¬(sem < 0 ∨ (NSEM : Int) ≤ sem ∨ n ≤ 0)) (h2 : ¬((getS s sem).queue = -1)) :
    signaln s sem n = (resched (signalnLoop s sem n.toNat), OK) := by
  unfold signaln
  rw [if_neg h1, if_neg h2]

theorem signalCore_nowake {s : Kernel} {sem : Int}
    (h : ¬((getS s sem).count + 1 ≤ 0) ∨ (getSQ s sem).head = -1) :
    signalCore s sem = (bumpCount s sem 1, -1) := by
  simp only [signalCore]
  rcases h with h | h
  · rw [if_neg (by rw [getS_count_bump]; exact h)]
  · by_cases hcnt : (getS (bumpCount s sem 1) sem).count ≤ 0
    · rw [if_pos hcnt]
      rw [dequeue_sem_nil (bumpCount s sem 1) sem (by rw [getSQ_bumpCount]; exact h)]
      simp
    · rw [if_neg hcnt]

theorem bump_semQWF {s : Kernel} {sem : Int} (d : Int) (hwf : semQWF s sem) :
    semQWF (bumpCount s sem d) sem := semQWF_ext rfl rfl hwf

theorem bump_semChainList (s : Kernel) (sem d : Int) :
    semChainList (bumpCount s sem d) sem = semChainList s sem :=
  semChainList_ext rfl rfl sem

theorem bumpCount_semtab_eq (s : Kernel) (x d : Int) :
    (bumpCount s x d).semtab = Function.update s.semtab (sidx x)
      { getS s x with count := (getS s x).count + d } := rfl

theorem signalCore_wake {s : Kernel} {sem x : Int} {L : List Int}
    (hwf : semQWF s sem) (hch : semChainList s sem = x :: L)
    (hcnt : (getS s sem).count + 1 ≤ 0) :
    (signalCore s sem).2 = x ∧
    semChainList (signalCore s sem).1 sem = L ∧
    semQWF (signalCore s sem).1 sem ∧
    getP (signalCore s sem).1 x = { getP s x with pstate := PR_READY, pwait := -1 } ∧
    (∀ q, validPid q → q ≠ x → getP (signalCore s sem).1 q = getP s q) ∧
    (getS (signalCore s sem).1 sem).count = (getS s sem).count + 1 ∧
    (getS (signalCore s sem).1 sem).queue = (getS s sem).queue ∧
    (signalCore s sem).1.currpid = s.currpid ∧
    (signalCore s sem).1.readyHead = s.readyHead ∧
    (signalCore s sem).1.semtab = Function.update s.semtab (sidx sem)
      { getS s sem with count := (getS s sem).count + 1 } ∧
    (signalCore s sem).1.semQueues = Function.update s.semQueues (sidx sem)
      ⟨(getP s x).pwait, if (getP s x).pwait = -1 then -1 else (getSQ s sem).tail⟩ := by
  have hb : semQWF (bumpCount s sem 1) sem := bump_semQWF 1 hwf
  have hbch : semChainList (bumpCount s sem 1) sem = x :: L := by
    rw [bump_semChainList]
    exact hch
  have hvx : validPid x := by
    refine semChainList_valid hwf x ?_
    rw [hch]
    simp
  obtain ⟨hd1, hd2, hd3, hd4, hd5, hd6, hd7, hd8, hd9, hd10⟩ := dequeue_sem_cons hb hbch
  simp only [getP_bumpCount, getSQ_bumpCount, bumpCount_currpid, bumpCount_readyHead,
    bumpCount_semQueues] at hd4 hd5 hd8 hd9 hd10
  have heqA : signalCore s sem = (setP (dequeue_sem (bumpCount s sem 1) sem).1 x
      (fun e => { e with pstate := PR_READY, pwait := -1 }), x) := by
    simp only [signalCore]
    rw [if_pos (by rw [getS_count_bump]; omega), hd1,
      if_pos (validPid_ne_neg1 hvx)]
  have heqA1 : (signalCore s sem).1 = setP (dequeue_sem (bumpCount s sem 1) sem).1 x
      (fun e => { e with pstate := PR_READY, pwait := -1 }) := by rw [heqA]
  have heqA2 : (signalCore s sem).2 = x := by rw [heqA]
  rw [heqA1, heqA2]
  have hxnL : x ∉ L := by
    have hndL := hwf.2.1
    rw [hch, List.nodup_cons] at hndL
    exact hndL.1
  have hchain := @semChain_untouched
    ((dequeue_sem (bumpCount s sem 1) sem).1)
    (setP (dequeue_sem (bumpCount s sem 1) sem).1 x
      (fun e => { e with pstate := PR_READY, pwait := -1 }))
    sem (getSQ_setP ..) hd3
    (by
      intro y hy
      rw [hd2] at hy
      have hvy : validPid y := by
        refine semChainList_valid hd3 y ?_
        rw [hd2]
        exact hy
      rw [getP_setP_ne hvx hvy (fun hyx => hxnL (hyx ▸ hy))])
  rw [hd2] at hchain
  refine ⟨rfl, hchain.1, hchain.2, ?_, ?_, ?_, ?_, ?_, ?_, ?_, ?_⟩
  · rw [getP_setP_self, hd4]
  · intro q hq hqx
    rw [getP_setP_ne hvx hq hqx, hd5 q hq hqx]
  · show (getS (dequeue_sem (bumpCount s sem 1) sem).1 sem).count = _
    unfold getS
    rw [hd7, bumpCount_semtab_eq, Function.update_same]
    rfl
  · show (getS (dequeue_sem (bumpCount s sem 1) sem).1 sem).queue = _
    unfold getS
    rw [hd7, bumpCount_semtab_eq, Function.update_same]
    rfl
  · rw [setP_currpid, hd8]
  · rw [setP_readyHead, hd9]
  · show (dequeue_sem (bumpCount s sem 1) sem).1.semtab = _
    rw [hd7, bumpCount_semtab_eq]
  · show (dequeue_sem (bumpCount s sem 1) sem).1.semQueues = _
    rw [hd10]

/-- schedDisjoint only looks at currpid and the ready chain. -/
theorem schedDisjoint_of_eq {t s : Kernel} {l : List Int}
    (hc : t.currpid = s.currpid) (hr : readyChainList t = readyChainList s)
    (hd : schedDisjoint s l) : schedDisjoint t l := by
  intro p hp
  obtain ⟨h1, h2, h3⟩ := hd p hp
  refine ⟨?_, ?_, h3⟩
  · rw [hc]; exact h1
  · rw [hr]; exact h2

/-- One signalCore step leaves the scheduler state (ready chain, current
pid, schedWF) unchanged, provided the wait chain is scheduler-disjoint. -/
theorem signalCore_sched {s : Kernel} {sem : Int} (hQ : semQWF s sem)
    (hwf : schedWF s) (hd : schedDisjoint s (semChainList s sem)) :
    readyChainList (signalCore s sem).1 = readyChainList s ∧
    schedWF (signalCore s sem).1 ∧
    (signalCore s sem).1.currpid = s.currpid := by
  obtain ⟨hrwf, hvc, hnc⟩ := hwf
  by_cases hcnt : (getS s sem).count + 1 ≤ 0
  · rcases hchu : semChainList s sem with _ | ⟨x, L⟩
    · rw [signalCore_nowake (Or.inr (hQ.2.2.1 hchu).1)]
      have hr := readyChain_untouched (s := s) (t := bumpCount s sem 1) rfl hrwf
        (fun y _ => rfl)
      exact ⟨hr.1, ⟨hr.2, hvc, by rw [hr.1]; exact hnc⟩, rfl⟩
    · obtain ⟨w1, w2, w3, w4, w5, w6, w7, w8, w9, w10, w11⟩ :=
        signalCore_wake hQ hchu hcnt
      have hxC : x ∈ semChainList s sem := by rw [hchu]; simp
      have hr := readyChain_untouched (s := s) (t := (signalCore s sem).1) w9 hrwf
        (fun y hy => by
          have hvy : validPid y := chainF_valid hrwf.1 y hy
          have hyx : y ≠ x := fun hc => (hd x hxC).2.1 (hc ▸ hy)
          rw [w5 y hvy hyx])
      refine ⟨hr.1, ⟨hr.2, by rw [w8]; exact hvc, ?_⟩, w8⟩
      rw [hr.1, w8]
      exact hnc
  · rw [signalCore_nowake (Or.inl hcnt)]
    have hr := readyChain_untouched (s := s) (t := bumpCount s sem 1) rfl hrwf
      (fun y _ => rfl)
    exact ⟨hr.1, ⟨hr.2, hvc, by rw [hr.1]; exact hnc⟩, rfl⟩

/-- The simulation relation between the state after j calls of signal (t)
and the state after j iterations of the signaln loop (u), relative to the
initial wait chain C. -/
def SigRel (sem : Int) (C : List Int) (t u : Kernel) : Prop :=
  t.semtab = u.semtab ∧
  t.semQueues = u.semQueues ∧
  (∀ p ∈ C, getP t p = getP u p) ∧
  (∀ p ∈ C, validPid p) ∧
  semQWF u sem ∧
  (∃ M, C = M ++ semChainList u sem ∧ ∀ p ∈ M, (getP u p).pstate = PR_READY) ∧
  (getS u sem).queue ≠ -1 ∧
  schedWF t ∧ schedDisjoint t C ∧
  schedWF u ∧ schedDisjoint u C

theorem sigRel_step {sem : Int} {C : List Int} {t u : Kernel}
    (hsem : ¬(sem < 0 ∨ (NSEM : Int) ≤ sem)) (h : SigRel sem C t u) :
    SigRel sem C (signal t sem).1 (signalCore u sem).1 := by
  obtain ⟨hsemtab, hsemQ, hagree, hvalC, hQu, ⟨M, hM, hMready⟩, hqne, hwft, hdt,
    hwfu, hdu⟩ := h
  have hgetS : getS t sem = getS u sem := by unfold getS; rw [hsemtab]
  have hgetSQ : getSQ t sem = getSQ u sem := by unfold getSQ; rw [hsemQ]
  have hsubC : ∀ y ∈ semChainList u sem, y ∈ C := by
    intro y hy
    rw [hM]
    exact List.mem_append.mpr (Or.inr hy)
  have hchainEq := semChain_untouched (s := u) (t := t) hgetSQ hQu
    (fun y hy => by rw [hagree y (hsubC y hy)])
  have hQt : semQWF t sem := hchainEq.2
  have hchEq : semChainList t sem = semChainList u sem := hchainEq.1
  have h2t : ¬((getS t sem).queue = -1) := by rw [hgetS]; exact hqne
  have hdtchain : schedDisjoint t (semChainList t sem) := by
    intro p hp
    exact hdt p (hsubC p (hchEq ▸ hp))
  have hduchain : schedDisjoint u (semChainList u sem) := by
    intro p hp
    exact hdu p (hsubC p hp)
  have hschedT := signalCore_sched hQt hwft hdtchain
  have hschedU := signalCore_sched hQu hwfu hduchain
  by_cases hcnt : (getS u sem).count + 1 ≤ 0
  · rcases hchu : semChainList u sem with _ | ⟨x, L⟩
    · -- empty wait chain: both sides just bump the count.
      have hheadU : (getSQ u sem).head = -1 := (hQu.2.2.1 hchu).1
      have hcoreU : signalCore u sem = (bumpCount u sem 1, -1) :=
        signalCore_nowake (Or.inr hheadU)
      have hcoreT : signalCore t sem = (bumpCount t sem 1, -1) :=
        signalCore_nowake (Or.inr (by rw [hgetSQ]; exact hheadU))
      have hsig : (signal t sem).1 = bumpCount t sem 1 := by
        rw [signal_eq hsem h2t, hcoreT]
        simp
      rw [hsig, hcoreU]
      have hrt := readyChain_untouched (s := t) (t := bumpCount t sem 1) rfl
        hwft.1 (fun y _ => rfl)
      have hru := readyChain_untouched (s := u) (t := bumpCount u sem 1) rfl
        hwfu.1 (fun y _ => rfl)
      refine ⟨?_, hsemQ, hagree, hvalC, bump_semQWF 1 hQu, ?_, ?_, ?_, ?_, ?_, ?_⟩
      · rw [bumpCount_semtab_eq, bumpCount_semtab_eq, hsemtab, hgetS]
      · refine ⟨M, ?_, hMready⟩
        rw [bump_semChainList, hchu]
        rw [hchu] at hM
        exact hM
      · rw [getS_queue_bump]; exact hqne
      · exact ⟨hrt.2, hwft.2.1, by rw [hrt.1]; exact hwft.2.2⟩
      · exact schedDisjoint_of_eq rfl hrt.1 hdt
      · exact ⟨hru.2, hwfu.2.1, by rw [hru.1]; exact hwfu.2.2⟩
      · exact schedDisjoint_of_eq rfl hru.1 hdu
    · -- wake case: both sides wake x.
      have hxU : x ∈ semChainList u sem := by rw [hchu]; simp
      have hxC : x ∈ C := hsubC x hxU
      have hvx : validPid x := hvalC x hxC
      have hcht : semChainList t sem = x :: L := by rw [hchEq, hchu]
      obtain ⟨wU1, wU2, wU3, wU4, wU5, wU6, wU7, wU8, wU9, wU10, wU11⟩ :=
        signalCore_wake hQu hchu hcnt
      obtain ⟨wT1, wT2, wT3, wT4, wT5, wT6, wT7, wT8, wT9, wT10, wT11⟩ :=
        signalCore_wake hQt hcht (by rw [hgetS]; exact hcnt)
      have hsig : (signal t sem).1 = resched (signalCore t sem).1 := by
        rw [signal_eq hsem h2t]
        show (if (signalCore t sem).2 ≠ -1 then resched (signalCore t sem).1
          else (signalCore t sem).1) = _
        rw [wT1, if_pos (validPid_ne_neg1 hvx)]
      have hdt1 : schedDisjoint (signalCore t sem).1 C :=
        schedDisjoint_of_eq hschedT.2.2 hschedT.1 hdt
      have hdu1 : schedDisjoint (signalCore u sem).1 C :=
        schedDisjoint_of_eq hschedU.2.2 hschedU.1 hdu
      have hagree1 : ∀ p ∈ C, getP (signalCore t sem).1 p = getP (signalCore u sem).1 p := by
        intro p hp
        by_cases hpx : p = x
        · subst hpx
          rw [wT4, wU4, hagree p hp]
        · rw [wT5 p (hvalC p hp) hpx, wU5 p (hvalC p hp) hpx, hagree p hp]
      have hframe : ∀ p ∈ C, getP (resched (signalCore t sem).1) p =
          getP (signalCore t sem).1 p := by
        intro p hp
        obtain ⟨f1, f2, f3⟩ := hdt1 p hp
        exact resched_frame hschedT.2.1 (hvalC p hp) f1 f2 f3
      rw [hsig]
      refine ⟨?_, ?_, ?_, hvalC, wU3, ?_, ?_, ?_, ?_, ?_, ?_⟩
      · rw [(resched_scalars _).1, wT10, wU10, hsemtab, hgetS]
      · rw [(resched_scalars _).2.1, wT11, wU11, hsemQ, hgetSQ, hagree x hxC]
      · intro p hp
        rw [hframe p hp, hagree1 p hp]
      · refine ⟨M ++ [x], ?_, ?_⟩
        · rw [wU2, hM, hchu, List.append_assoc]
          rfl
        · intro p hp
          rcases List.mem_append.mp hp with hpM | hpx
          · by_cases hpx2 : p = x
            · subst hpx2
              rw [wU4]
            · rw [wU5 p (hvalC p (hM ▸ List.mem_append.mpr (Or.inl hpM))) hpx2]
              exact hMready p hpM
          · have hpx2 : p = x := by simpa using hpx
            subst hpx2
            rw [wU4]
      · rw [wU7]; exact hqne
      · exact (resched_tracks hschedT.2.1).1
      · exact resched_schedDisjoint hschedT.2.1 hdt1
      · exact hschedU.2.1
      · exact hdu1
  · -- count stays nonnegative: both sides just bump the count.
    have hcoreU : signalCore u sem = (bumpCount u sem 1, -1) :=
      signalCore_nowake (Or.inl hcnt)
    have hcoreT : signalCore t sem = (bumpCount t sem 1, -1) :=
      signalCore_nowake (Or.inl (by rw [hgetS]; exact hcnt))
    have hsig : (signal t sem).1 = bumpCount t sem 1 := by
      rw [signal_eq hsem h2t, hcoreT]
      simp
    rw [hsig, hcoreU]
    have hrt := readyChain_untouched (s := t) (t := bumpCount t sem 1) rfl
      hwft.1 (fun y _ => rfl)
    have hru := readyChain_untouched (s := u) (t := bumpCount u sem 1) rfl
      hwfu.1 (fun y _ => rfl)
    refine ⟨?_, hsemQ, hagree, hvalC, bump_semQWF 1 hQu, ?_, ?_, ?_, ?_, ?_, ?_⟩
    · rw [bumpCount_semtab_eq, bumpCount_semtab_eq, hsemtab, hgetS]
    · refine ⟨M, ?_, hMready⟩
      rw [bump_semChainList]
      exact hM
    · rw [getS_queue_bump]; exact hqne
    · exact ⟨hrt.2, hwft.2.1, by rw [hrt.1]; exact hwft.2.2⟩
    · exact schedDisjoint_of_eq rfl hrt.1 hdt
    · exact ⟨hru.2, hwfu.2.1, by rw [hru.1]; exact hwfu.2.2⟩
    · exact schedDisjoint_of_eq rfl hru.1 hdu

theorem sigRel_iter {sem : Int} {C : List Int}
    (hsem : ¬(sem < 0 ∨ (NSEM : Int) ≤ sem)) :
    ∀ (k : Nat) (t u : Kernel), SigRel sem C t u →
      SigRel sem C (iterSignal t sem k) (signalnLoop u sem k)
  | 0, _, _, h => h
  | k + 1, t, u, h =>
    sigRel_iter hsem k (signal t sem).1 (signalCore u sem).1 (sigRel_step hsem h)

/-- Everything the signaln-vs-k-signals comparison needs, assembled. -/
theorem sigRel_final {s : Kernel} {sem n : Int} (hn : 0 < n)
    (hsem : ¬(sem < 0 ∨ (NSEM : Int) ≤ sem))
    (halloc : ¬((getS s sem).queue = -1))
    (hQ : semQWF s sem) (hsched : schedWF s)
    (hdisj : schedDisjoint s (semChainList s sem)) :
    (signaln s sem n).2 = OK ∧
    (getS (iterSignal s sem n.toNat) sem).count = (getS (signaln s sem n).1 sem).count ∧
    semChainList (iterSignal s sem n.toNat) sem = semChainList (signaln s sem n).1 sem ∧
    (∀ p ∈ semChainList s sem,
      getP (iterSignal s sem n.toNat) p = getP (signaln s sem n).1 p) ∧
    (∃ M, semChainList s sem = M ++ semChainList (signaln s sem n).1 sem ∧
      ∀ p ∈ M, (getP (signaln s sem n).1 p).pstate = PR_READY ∧
        (getP (iterSignal s sem n.toNat) p).pstate = PR_READY) := by
  have hbase : SigRel sem (semChainList s sem) s s :=
    ⟨rfl, rfl, fun p _ => rfl, semChainList_valid hQ, hQ,
      ⟨[], rfl, fun p hp => absurd hp (List.not_mem_nil p)⟩, halloc,
      hsched, hdisj, hsched, hdisj⟩
  obtain ⟨hsemtab, hsemQ, hagree, hvalC, hQu, ⟨M, hM, hMready⟩, hqne, hwft, hdt,
    hwfu, hdu⟩ := sigRel_iter hsem n.toNat s s hbase
  have hsigeq : signaln s sem n = (resched (signalnLoop s sem n.toNat), OK) :=
    signaln_eq (by push_neg; push_neg at hsem; exact ⟨hsem.1, hsem.2, hn⟩) halloc
  have hsig1 : (signaln s sem n).1 = resched (signalnLoop s sem n.toNat) := by
    rw [hsigeq]
  have hsig2 : (signaln s sem n).2 = OK := by rw [hsigeq]
  set t := iterSignal s sem n.toNat with ht
  set u := signalnLoop s sem n.toNat with hu
  have hgetS : getS t sem = getS u sem := by unfold getS; rw [hsemtab]
  have hgetSQ : getSQ t sem = getSQ u sem := by unfold getSQ; rw [hsemQ]
  have hsubC : ∀ y ∈ semChainList u sem, y ∈ semChainList s sem := by
    intro y hy
    rw [hM]
    exact List.mem_append.mpr (Or.inr hy)
  have hchainEq := semChain_untouched (s := u) (t := t) hgetSQ hQu
    (fun y hy => by rw [hagree y (hsubC y hy)])
  have hduchain : schedDisjoint u (semChainList u sem) :=
    fun p hp => hdu p (hsubC p hp)
  have hresched := semChain_resched hwfu hQu hduchain
  have hframe : ∀ p ∈ semChainList s sem, getP (resched u) p = getP u p := by
    intro p hp
    obtain ⟨f1, f2, f3⟩ := hdu p hp
    exact resched_frame hwfu (hvalC p hp) f1 f2 f3
  refine ⟨hsig2, ?_, ?_, ?_, ?_⟩
  · rw [hsig1]
    show (getS t sem).count = (getS (resched u) sem).count
    have : getS (resched u) sem = getS u sem := by
      unfold getS
      rw [(resched_scalars u).1]
    rw [this, hgetS]
  · rw [hsig1]
    show semChainList t sem = semChainList (resched u) sem
    rw [hchainEq.1, hresched.1]
  · intro p hp
    rw [hsig1]
    show getP t p = getP (resched u) p
    rw [hframe p hp, hagree p hp]
  · refine ⟨M, ?_, ?_⟩
    · rw [hsig1]
      show _ = M ++ semChainList (resched u) sem
      rw [hresched.1]
      exact hM
    · intro p hp
      have hpC : p ∈ semChainList s sem := by
        rw [hM]
        exact List.mem_append.mpr (Or.inl hp)
      have h1 : (getP (resched u) p).pstate = PR_READY := by
        rw [hframe p hpC]
        exact hMready p hp
      constructor
      · rw [hsig1]
        exact h1
      · show (getP t p).pstate = _
        rw [hagree p hpC, ← hframe p hpC]
        exact h1

/-- When the current process is no longer CURRENT, resched (reschedPick)
touches only the new current process: any valid pid off the ready list
other than the null process keeps its PCB, the old current included. -/
theorem resched_nonCurr_frame {s : Kernel} (hwf : schedWF s)
    (hnc : ¬((getP s s.currpid).pstate = PR_CURR)) {q : Int} (hq : validPid q)
    (hq2 : q ∉ readyChainList s) (hq3 : q ≠ 0) :
    getP (resched s) q = getP s q := by
  rw [resched_nonCurr hnc]
  rcases hc : readyChainList s with _ | ⟨x, L⟩
  · rw [reschedPick_nil hwf.1 hc]
    show getP (setP s 0 (fun e => { e with pstate := PR_CURR })) q = getP s q
    exact getP_setP_ne validPid_zero hq hq3
  · refine (reschedPick_cons hwf.1 hc).2.2.2.2.1 q hq ?_
    intro hc2
    exact hq2 (hc2 ▸ (hc ▸ List.mem_cons_self x L))

/-- After resched there is always a valid current process in state
CURRENT: selection cannot fail. -/
theorem resched_never_fails {s : Kernel} (hwf : schedWF s) :
    validPid (resched s).currpid ∧
    (getP (resched s) (resched s).currpid).pstate = PR_CURR := by
  refine ⟨(resched_tracks hwf).1.2.1, ?_⟩
  by_cases hcur : (getP s s.currpid).pstate = PR_CURR
  · by_cases hpre : s.readyHead ≠ -1 ∧ (getP s s.currpid).pprio < (getP s s.readyHead).pprio
    · obtain ⟨hc1, hc2, _⟩ := resched_preempt_spec hwf hcur hpre.1 hpre.2
      rw [hc1]
      exact hc2
    · rw [resched_noSwitch hcur (by tauto)]
      exact hcur
  · rw [resched_nonCurr hcur]
    rcases hc : readyChainList s with _ | ⟨x, L⟩
    · rw [reschedPick_nil hwf.1 hc]
      show (getP (setP s 0 (fun e => { e with pstate := PR_CURR })) 0).pstate = PR_CURR
      rw [getP_setP_self]
    · obtain ⟨hp1, _, _, hp4, _⟩ := reschedPick_cons hwf.1 hc
      rw [hp1]
      exact hp4

/-!  The claim theorems. -/

/-- Claim C1 (refuted, code bug): kill of a WAITING process does not
preserve the semaphore counting invariant.  In sK1, semaphore 0 has count
-2 with FIFO [1, 2] and the invariant holds; kill(1) reads pwait as a
semaphore id although it holds the FIFO next-link (2), so it increments
the count of free slot 2 (77 to 78) instead of semaphore 0, and never
unlinks pid 1, leaving the chain truncated to [1], zero WAITING processes
linked on semaphore 0, and the count still -2. -/
theorem kill_corrupts_sem_fifo :
    semWaitInvariant sK1 0 ∧ semQWF sK1 0 ∧
    (getP sK1 1).pstate = PR_WAIT ∧
    semChainList sK1 0 = [1, 2] ∧
    ¬ semWaitInvariant (kill sK1 1) 0 ∧
    (getS (kill sK1 1) 0).count = -2 ∧
    waitingOnSem (kill sK1 1) 0 = 0 ∧
    (getP (kill sK1 1) 2).pstate = PR_WAIT ∧
    semChainList (kill sK1 1) 0 = [1] ∧
    (getS sK1 2).count = 77 ∧ (getS (kill sK1 1) 2).count = 78 := by decide

/-- Claim C5 (refuted, code bug): insertd followed by getitem for the
same pid does not restore the delta sum.  In sC5 the sleep-style queue 0
holds pid 4 with delta 5 (sum 5); insertd(6, 0, 3) inserts pid 6 ahead
with delta 3 and reduces pid 4 to 2 (sum still 5); getitem(6, 0) then
unlinks pid 6 without propagating its delta 3 to pid 4, leaving sum 2. -/
theorem getitem_drops_delta :
    deltaSumQ sC5 0 = 5 ∧ queuePids sC5 0 = [4] ∧
    (insertd sC5 6 0 3).2 = OK ∧
    queuePids sC5a 0 = [6, 4] ∧ deltaSumQ sC5a 0 = 5 ∧
    (getitem sC5a 6 0).2 = OK ∧
    queuePids sC5b 0 = [4] ∧
    deltaSumQ sC5b 0 = 2 ∧ ¬(deltaSumQ sC5b 0 = 5) ∧
    (getP sC5b 4).pargs = 2 := by decide

/-- Claim C6 (refuted, code bug): unsleep removes the sleeping process
but does not add its remaining delta to the successor.  In sC6 the sleep
queue is [pid 2 (delta 5), pid 3 (delta 2)]; unsleep(2) of clock.c leaves
pid 3 with delta 2 instead of 7, so pid 3 now wakes 5 ticks early.  The
SUSPENDED marking and the error return for a non-SLEEP pid do hold of
clock.c, but the duplicate unsleep of process.c marks the process READY. -/
theorem unsleep_drops_delta :
    queuePids sC6 0 = [2, 3] ∧ (getP sC6 3).pargs = 2 ∧
    (unsleep_clock sC6 2).2 = OK ∧
    queuePids (unsleep_clock sC6 2).1 0 = [3] ∧
    (getP (unsleep_clock sC6 2).1 3).pargs = 2 ∧
    ¬((getP (unsleep_clock sC6 2).1 3).pargs = 7) ∧
    (getP (unsleep_clock sC6 2).1 2).pstate = PR_SUSP ∧
    (unsleep_clock sC6 1).2 = SYSERR ∧ (unsleep_clock sC6 1).1 = sC6 ∧
    (getP (unsleep_process sC6 2).1 2).pstate = PR_READY := by decide

/-- Claim C9 counterexample: sleep(0) of clock.c is not a yield.  In sC9
a higher-priority process (pid 2, priority 9) is ready while pid 1
(priority 5) is current: yield switches to pid 2, but sleep(0) of clock.c
returns OK immediately and changes nothing. -/
theorem sleep_zero_not_yield :
    (sleep_clock sC9 0).1 = sC9 ∧ (sleep_clock sC9 0).2 = OK ∧
    ¬(yield sC9 = sC9) ∧ (yield sC9).currpid = 2 ∧ sC9.currpid = 1 := by decide

/-- Claim C9 (corrected): sleep(0) of clock.c (lines 319-345) returns OK
immediately with no state change and no reschedule decision, while the
duplicate sleep of process.c (lines 484-504) does behave as yield on
delay 0. -/
theorem sleep_zero_behaviour (s : Kernel) :
    sleep_clock s 0 = (s, OK) ∧ sleep_process s 0 = yield s := by
  constructor
  · unfold sleep_clock
    simp
  · unfold sleep_process
    simp

/-- Claim C10 counterexample: getstate on an in-range FREE pid returns
PR_FREE (0), not SYSERR, because process.c lines 739-744 have no
free-slot check; getprio and semcount do return SYSERR on free slots. -/
theorem getstate_free_not_syserr :
    (getP baseKernel 5).pstate = PR_FREE ∧
    (getstate baseKernel 5).2 = PR_FREE ∧
    ¬((getstate baseKernel 5).2 = SYSERR) ∧
    (getprio baseKernel 5).2 = SYSERR ∧
    (semcount baseKernel 5).2 = SYSERR := by decide

/-- Claim C10 (corrected): semcount, getprio and getstate are read-only
on every input, and return SYSERR out of range; on an in-range free id
getprio and semcount return SYSERR but getstate returns the stored state
PR_FREE; on an allocated id each returns the stored value. -/
theorem accessors_read_only (s : Kernel) (x : Int) :
    (semcount s x).1 = s ∧ (getprio s x).1 = s ∧ (getstate s x).1 = s ∧
    ((x < 0 ∨ (NPROC : Int) ≤ x) →
      (getprio s x).2 = SYSERR ∧ (getstate s x).2 = SYSERR) ∧
    ((x < 0 ∨ (NSEM : Int) ≤ x) → (semcount s x).2 = SYSERR) ∧
    (¬(x < 0 ∨ (NPROC : Int) ≤ x) → (getP s x).pstate = PR_FREE →
      (getprio s x).2 = SYSERR ∧ (getstate s x).2 = (getP s x).pstate) ∧
    (¬(x < 0 ∨ (NSEM : Int) ≤ x) → (getS s x).queue = -1 →
      (semcount s x).2 = SYSERR) ∧
    (¬(x < 0 ∨ (NPROC : Int) ≤ x) → ¬((getP s x).pstate = PR_FREE) →
      (getprio s x).2 = (getP s x).pprio ∧ (getstate s x).2 = (getP s x).pstate) ∧
    (¬(x < 0 ∨ (NSEM : Int) ≤ x) → ¬((getS s x).queue = -1) →
      (semcount s x).2 = (getS s x).count) := by
  unfold semcount getprio getstate
  refine ⟨?_, ?_, ?_, ?_, ?_, ?_, ?_, ?_, ?_⟩ <;> split_ifs <;>
    simp_all <;> omega

/-- Claim C4 (confirmed): the reschedule policy.  With the current
process still CURRENT and the ready head no higher priority, resched is
the identity; with the head strictly higher, the current process is
marked READY and reinserted into the ready list at its priority and the
head is dequeued and made CURRENT; when a pick is forced and the ready
list is empty the null process 0 is selected; and in every case resched
ends with a valid current process in state CURRENT, so it never fails. -/
theorem resched_policy {s : Kernel} (hwf : schedWF s) :
    ((getP s s.currpid).pstate = PR_CURR →
      (s.readyHead = -1 ∨ (getP s s.readyHead).pprio ≤ (getP s s.currpid).pprio) →
      resched s = s) ∧
    ((getP s s.currpid).pstate = PR_CURR → s.readyHead ≠ -1 →
      (getP s s.currpid).pprio < (getP s s.readyHead).pprio →
      (resched s).currpid = s.readyHead ∧
      (getP (resched s) s.readyHead).pstate = PR_CURR ∧
      (getP (resched s) s.currpid).pstate = PR_READY ∧
      s.currpid ∈ readyChainList (resched s) ∧
      readyChainList (resched s) = List.tail
        (insertAfterGE s ((getP s s.currpid).pprio) s.currpid (readyChainList s))) ∧
    (¬((getP s s.currpid).pstate = PR_CURR) → readyChainList s = [] →
      (resched s).currpid = 0 ∧ (getP (resched s) 0).pstate = PR_CURR) ∧
    validPid (resched s).currpid ∧
    (getP (resched s) (resched s).currpid).pstate = PR_CURR := by
  refine ⟨?_, ?_, ?_, resched_never_fails hwf⟩
  · intro h1 h2
    refine resched_noSwitch h1 ?_
    rcases h2 with h | h
    · exact Or.inl h
    · exact Or.inr (by omega)
  · intro h1 h2 h3
    obtain ⟨c1, c2, c3, c4, c5, _⟩ := resched_preempt_spec hwf h1 h2 h3
    exact ⟨c1, c2, c3, c4, c5⟩
  · intro h1 h2
    rw [resched_nonCurr h1, reschedPick_nil hwf.1 h2]
    refine ⟨rfl, ?_⟩
    show (getP (setP s 0 (fun e => { e with pstate := PR_CURR })) 0).pstate = PR_CURR
    rw [getP_setP_self]

/-- Claim C4 witness: the policy at the concrete preemption state sC4
(current pid 1 at priority 20, ready head pid 2 at priority 50). -/
theorem resched_policy_witness :
    schedWF sC4 ∧
    (((getP sC4 sC4.currpid).pstate = PR_CURR →
      (sC4.readyHead = -1 ∨ (getP sC4 sC4.readyHead).pprio ≤ (getP sC4 sC4.currpid).pprio) →
      resched sC4 = sC4) ∧
    ((getP sC4 sC4.currpid).pstate = PR_CURR → sC4.readyHead ≠ -1 →
      (getP sC4 sC4.currpid).pprio < (getP sC4 sC4.readyHead).pprio →
      (resched sC4).currpid = sC4.readyHead ∧
      (getP (resched sC4) sC4.readyHead).pstate = PR_CURR ∧
      (getP (resched sC4) sC4.currpid).pstate = PR_READY ∧
      sC4.currpid ∈ readyChainList (resched sC4) ∧
      readyChainList (resched sC4) = List.tail
        (insertAfterGE sC4 ((getP sC4 sC4.currpid).pprio) sC4.currpid (readyChainList sC4))) ∧
    (¬((getP sC4 sC4.currpid).pstate = PR_CURR) → readyChainList sC4 = [] →
      (resched sC4).currpid = 0 ∧ (getP (resched sC4) 0).pstate = PR_CURR) ∧
    validPid (resched sC4).currpid ∧
    (getP (resched sC4) (resched sC4).currpid).pstate = PR_CURR) :=
  ⟨by decide, resched_policy (by decide)⟩

/-- Claim C7 counterexample: timedwait is not transactional across a
block.  In sC7 process 1 calls timedwait(0, 77) and blocks; another
process runs semdelete(0); the resumed caller gets SYSERR, yet its pargs
now holds the stored timeout 77 (it was 0) and the state differs from
the pre-call state. -/
theorem timedwait_syserr_not_transactional :
    (timedwaitEnter sC7 0 77).2 = WaitRes.blocked ∧
    (semdelete sC7a 0).2 = OK ∧
    timedwaitResume sC7b 0 = SYSERR ∧
    (getP sC7 1).pargs = 0 ∧ (getP sC7b 1).pargs = 77 ∧
    ¬(sC7b = sC7) := by decide

/-- Claim C7 (corrected): the validation paths are transactional - a
SYSERR return from trywait, resume (priorities are never SYSERR), the
enter phase of timedwait, getprio or semcount leaves the kernel state
exactly unchanged - but a timedwait that blocks and later reports SYSERR
has already changed state (see the counterexample). -/
theorem syserr_validation_transactional (s : Kernel) (sem pid timeout : Int)
    (hpr : ¬((getP s pid).pprio = SYSERR)) :
    ((trywait s sem).2 = SYSERR → (trywait s sem).1 = s) ∧
    ((resume s pid).2 = SYSERR → (resume s pid).1 = s) ∧
    ((timedwaitEnter s sem timeout).2 = WaitRes.ret SYSERR →
      (timedwaitEnter s sem timeout).1 = s) ∧
    ((getprio s pid).2 = SYSERR → (getprio s pid).1 = s) ∧
    ((semcount s sem).2 = SYSERR → (semcount s sem).1 = s) := by
  refine ⟨?_, ?_, ?_, ?_, ?_⟩
  · unfold trywait
    split_ifs <;> intro h <;>
      first
        | rfl
        | exact absurd h (by show ¬((OK : Int) = SYSERR); decide)
  · unfold resume
    split_ifs <;> intro h <;> first | rfl | exact absurd h hpr
  · unfold timedwaitEnter
    split_ifs <;> intro h <;>
      first
        | rfl
        | exact absurd (WaitRes.ret.inj h) (by decide)
        | exact h.elim
  · unfold getprio
    split_ifs <;> intro h <;> rfl
  · unfold semcount
    split_ifs <;> intro h <;> rfl
/-- Claim C7 witness: the transactional SYSERR paths at the concrete
state sC7 (process 1 current at priority 30, semaphore 0 allocated). -/
theorem syserr_validation_transactional_witness :
    ¬((getP sC7 1).pprio = SYSERR) ∧
    (((trywait sC7 0).2 = SYSERR → (trywait sC7 0).1 = sC7) ∧
    ((resume sC7 1).2 = SYSERR → (resume sC7 1).1 = sC7) ∧
    ((timedwaitEnter sC7 0 5).2 = WaitRes.ret SYSERR →
      (timedwaitEnter sC7 0 5).1 = sC7) ∧
    ((getprio sC7 1).2 = SYSERR → (getprio sC7 1).1 = sC7) ∧
    ((semcount sC7 0).2 = SYSERR → (semcount sC7 0).1 = sC7)) :=
  ⟨by decide, syserr_validation_transactional sC7 0 1 5 (by decide)⟩

/-- Claim C8 (confirmed): from a well-formed state with allocated
semaphore sem whose wait chain is scheduler-disjoint, signaln(sem, n)
with n > 0 returns OK and agrees with n successive signal(sem) calls on
the semaphore count, on the remaining wait list, and on the PCBs of
every process of the original wait list; the processes removed from the
list are READY on both sides, although signaln ran resched only once,
after its n increments. -/
theorem signaln_equiv_signals {s : Kernel} {sem n : Int} (hn : 0 < n)
    (hsem : ¬(sem < 0 ∨ (NSEM : Int) ≤ sem))
    (halloc : ¬((getS s sem).queue = -1))
    (hQ : semQWF s sem) (hsched : schedWF s)
    (hdisj : schedDisjoint s (semChainList s sem)) :
    (signaln s sem n).2 = OK ∧
    (getS (iterSignal s sem n.toNat) sem).count =
      (getS (signaln s sem n).1 sem).count ∧
    semChainList (iterSignal s sem n.toNat) sem =
      semChainList (signaln s sem n).1 sem ∧
    (∀ p ∈ semChainList s sem,
      getP (iterSignal s sem n.toNat) p = getP (signaln s sem n).1 p) ∧
    (∃ M, semChainList s sem = M ++ semChainList (signaln s sem n).1 sem ∧
      ∀ p ∈ M, (getP (signaln s sem n).1 p).pstate = PR_READY ∧
        (getP (iterSignal s sem n.toNat) p).pstate = PR_READY) :=
  sigRel_final hn hsem halloc hQ hsched hdisj

/-- Claim C8 witness: the equivalence at the concrete state sC8
(semaphore 0 with count -3 and FIFO [2, 3, 4]) for n = 2. -/
theorem signaln_equiv_signals_witness :
    ((0 : Int) < 2 ∧ ¬((0 : Int) < 0 ∨ (NSEM : Int) ≤ 0) ∧
      ¬((getS sC8 0).queue = -1) ∧ semQWF sC8 0 ∧ schedWF sC8 ∧
      schedDisjoint sC8 (semChainList sC8 0)) ∧
    ((signaln sC8 0 2).2 = OK ∧
    (getS (iterSignal sC8 0 (2 : Int).toNat) 0).count =
      (getS (signaln sC8 0 2).1 0).count ∧
    semChainList (iterSignal sC8 0 (2 : Int).toNat) 0 =
      semChainList (signaln sC8 0 2).1 0 ∧
    (∀ p ∈ semChainList sC8 0,
      getP (iterSignal sC8 0 (2 : Int).toNat) p = getP (signaln sC8 0 2).1 p) ∧
    (∃ M, semChainList sC8 0 = M ++ semChainList (signaln sC8 0 2).1 0 ∧
      ∀ p ∈ M, (getP (signaln sC8 0 2).1 p).pstate = PR_READY ∧
        (getP (iterSignal sC8 0 (2 : Int).toNat) p).pstate = PR_READY)) :=
  ⟨⟨by decide, by decide, by decide, by decide, by decide, by decide⟩,
    signaln_equiv_signals (by decide) (by decide) (by decide) (by decide)
      (by decide) (by decide)⟩

/-- Claim C3 counterexample: signal wakes the FIFO head but never
inserts it into the ready list.  In sC3, signal(0) marks pid 2 READY and
returns OK, yet the ready list stays empty: pid 2 can never be scheduled,
so the three waiters of the spec scenario are never actually run. -/
theorem signal_no_ready_insert :
    (signal sC3 0).2 = OK ∧
    (getS (signal sC3 0).1 0).count = 0 ∧
    (getP (signal sC3 0).1 2).pstate = PR_READY ∧
    (signal sC3 0).1.readyHead = -1 ∧
    readyChainList (signal sC3 0).1 = [] ∧
    semChainList (signal sC3 0).1 0 = [] := by decide

/-- Claim C3 (corrected): with the post-increment count at most 0,
signal(sem) increments the count, dequeues the FIFO head x, marks it
READY, clears its pwait and calls resched - in FIFO order, so successive
signals dequeue P1, P2, P3 in arrival order - but it never inserts x
into the ready list: x is not on the ready list afterwards, so the woken
process is in READY state without being schedulable. -/
theorem signal_wakes_head_no_insert {s : Kernel} {sem x : Int} {L : List Int}
    (hsem : ¬(sem < 0 ∨ (NSEM : Int) ≤ sem))
    (halloc : ¬((getS s sem).queue = -1))
    (hwf : semQWF s sem) (hch : semChainList s sem = x :: L)
    (hcnt : (getS s sem).count + 1 ≤ 0)
    (hsched : schedWF s) (hdisj : schedDisjoint s (semChainList s sem)) :
    (signal s sem).2 = OK ∧
    (getS (signal s sem).1 sem).count = (getS s sem).count + 1 ∧
    semChainList (signal s sem).1 sem = L ∧
    (getP (signal s sem).1 x).pstate = PR_READY ∧
    (getP (signal s sem).1 x).pwait = -1 ∧
    x ∉ readyChainList (signal s sem).1 := by
  have hxC : x ∈ semChainList s sem := by
    rw [hch]
    simp
  have hvx : validPid x := semChainList_valid hwf x hxC
  obtain ⟨w1, w2, w3, w4, w5, w6, w7, w8, w9, w10, w11⟩ := signalCore_wake hwf hch hcnt
  obtain ⟨S1, S2, S3⟩ := signalCore_sched hwf hsched hdisj
  obtain ⟨hdx1, hdx2, hdx3⟩ := hdisj x hxC
  have hsig2 : (signal s sem).2 = OK := by rw [signal_eq hsem halloc]
  have hsig1 : (signal s sem).1 = resched (signalCore s sem).1 := by
    rw [signal_eq hsem halloc]
    show (if (signalCore s sem).2 ≠ -1 then resched (signalCore s sem).1
      else (signalCore s sem).1) = _
    rw [w1, if_pos (validPid_ne_neg1 hvx)]
  have hxcur1 : x ≠ (signalCore s sem).1.currpid := by
    rw [S3]
    exact hdx1
  have hxready1 : x ∉ readyChainList (signalCore s sem).1 := by
    rw [S1]
    exact hdx2
  have hfr : getP (resched (signalCore s sem).1) x = getP (signalCore s sem).1 x :=
    resched_frame S2 hvx hxcur1 hxready1 hdx3
  refine ⟨hsig2, ?_, ?_, ?_, ?_, ?_⟩
  · rw [hsig1]
    have hst : getS (resched (signalCore s sem).1) sem = getS (signalCore s sem).1 sem := by
      unfold getS
      rw [(resched_scalars _).1]
    rw [hst, w6]
  · rw [hsig1]
    have hd1 : schedDisjoint (signalCore s sem).1 (semChainList (signalCore s sem).1 sem) := by
      rw [w2]
      intro p hp
      have hpC : p ∈ semChainList s sem := by
        rw [hch]
        exact List.mem_cons_of_mem x hp
      obtain ⟨a, b, c⟩ := hdisj p hpC
      exact ⟨by rw [S3]; exact a, by rw [S1]; exact b, c⟩
    rw [(semChain_resched S2 w3 hd1).1, w2]
  · rw [hsig1, hfr, w4]
  · rw [hsig1, hfr, w4]
  · rw [hsig1]
    intro hc
    rcases (resched_tracks S2).2.1 x hc with h | h
    · exact hxready1 h
    · exact hxcur1 h

/-- Claim C3 witness: the corrected behaviour at the concrete state sC3
(semaphore 0 with count -1 and FIFO [2], process 1 current). -/
theorem signal_wakes_head_no_insert_witness :
    (¬((0 : Int) < 0 ∨ (NSEM : Int) ≤ 0) ∧ ¬((getS sC3 0).queue = -1) ∧
     semQWF sC3 0 ∧ semChainList sC3 0 = 2 :: [] ∧ (getS sC3 0).count + 1 ≤ 0 ∧
     schedWF sC3 ∧ schedDisjoint sC3 (semChainList sC3 0)) ∧
    ((signal sC3 0).2 = OK ∧
    (getS (signal sC3 0).1 0).count = (getS sC3 0).count + 1 ∧
    semChainList (signal sC3 0).1 0 = [] ∧
    (getP (signal sC3 0).1 2).pstate = PR_READY ∧
    (getP (signal sC3 0).1 2).pwait = -1 ∧
    2 ∉ readyChainList (signal sC3 0).1) :=
  ⟨⟨by decide, by decide, by decide, by decide, by decide, by decide, by decide⟩,
    signal_wakes_head_no_insert (by decide) (by decide) (by decide) (by decide)
      (by decide) (by decide) (by decide)⟩

/-- Claim C2 counterexample: after a blocking wait the caller's pwait
does not hold the semaphore id.  In sC2, process 1 calls wait(0) and
blocks, but its pwait is -1 (the FIFO end marker written by enqueue_sem),
not the semaphore id 0. -/
theorem wait_pwait_not_sid :
    (waitEnter sC2 0).2 = WaitRes.blocked ∧
    (getP (waitEnter sC2 0).1 1).pstate = PR_WAIT ∧
    (getP (waitEnter sC2 0).1 1).pwait = -1 ∧
    ¬((getP (waitEnter sC2 0).1 1).pwait = 0) ∧
    semChainList (waitEnter sC2 0).1 0 = [1] := by decide

/-- Claim C2 (corrected): on an allocated semaphore whose decremented
count is negative, wait decrements the count, marks the caller WAITING,
appends it at the FIFO tail and rescheds; but when the caller blocks its
pwait ends as -1, the FIFO end marker (enqueue_sem overwrites the
semaphore id wait stored there), never the semaphore id; and the resume
phase returns SYSERR exactly when the slot has been freed meanwhile. -/
theorem wait_blocking_spec {s : Kernel} {sem : Int}
    (hsem : ¬(sem < 0 ∨ (NSEM : Int) ≤ sem))
    (halloc : ¬((getS s sem).queue = -1))
    (hcnt : (getS s sem).count - 1 < 0)
    (hwf : semQWF s sem) (hsched : schedWF s)
    (hdisj : schedDisjoint s (semChainList s sem))
    (hnotin : s.currpid ∉ semChainList s sem) (hc0 : s.currpid ≠ 0) :
    (waitEnter s sem).2 = WaitRes.blocked ∧
    (getS (waitEnter s sem).1 sem).count = (getS s sem).count - 1 ∧
    semChainList (waitEnter s sem).1 sem = semChainList s sem ++ [s.currpid] ∧
    (getP (waitEnter s sem).1 s.currpid).pstate = PR_WAIT ∧
    (getP (waitEnter s sem).1 s.currpid).pwait = -1 ∧
    ¬((getP (waitEnter s sem).1 s.currpid).pwait = sem) ∧
    (∀ t : Kernel, waitResume t sem = SYSERR ↔ (getS t sem).queue = -1) := by
  have hvc : validPid s.currpid := hsched.2.1
  have hcnt1 : (getS (bumpCount s sem (-1)) sem).count < 0 := by
    rw [getS_count_bump]
    omega
  have heq : waitEnter s sem =
      (resched (enqueue_sem (setP (bumpCount s sem (-1)) s.currpid
        (fun e => { e with pstate := PR_WAIT, pwait := sem })) sem s.currpid),
       WaitRes.blocked) := by
    simp only [waitEnter]
    rw [if_neg hsem, if_neg halloc, if_pos hcnt1]
    rfl
  have heq1 : (waitEnter s sem).1 = resched (enqueue_sem (setP (bumpCount s sem (-1))
      s.currpid (fun e => { e with pstate := PR_WAIT, pwait := sem })) sem s.currpid) := by
    rw [heq]
  have heq2 : (waitEnter s sem).2 = WaitRes.blocked := by rw [heq]
  have hwf1 : semQWF (bumpCount s sem (-1)) sem := bump_semQWF _ hwf
  have hch1 : semChainList (bumpCount s sem (-1)) sem = semChainList s sem :=
    bump_semChainList s sem (-1)
  have hchain2 := @semChain_untouched
    (bumpCount s sem (-1))
    (setP (bumpCount s sem (-1)) s.currpid
      (fun e => { e with pstate := PR_WAIT, pwait := sem }))
    sem (getSQ_setP ..) hwf1
    (by
      intro y hy
      rw [hch1] at hy
      have hvy : validPid y := semChainList_valid hwf y hy
      have hyne : y ≠ s.currpid := fun hc => hnotin (hc ▸ hy)
      rw [getP_setP_ne hvc hvy hyne])
  have hch2 : semChainList (setP (bumpCount s sem (-1)) s.currpid
      (fun e => { e with pstate := PR_WAIT, pwait := sem })) sem = semChainList s sem := by
    rw [hchain2.1, hch1]
  have hnot2 : s.currpid ∉ semChainList (setP (bumpCount s sem (-1)) s.currpid
      (fun e => { e with pstate := PR_WAIT, pwait := sem })) sem := by
    rw [hch2]
    exact hnotin
  obtain ⟨E1, E2, E3, E4, E5, E6, E7, E8, E9⟩ := enqueue_sem_spec hvc hchain2.2 hnot2
  rw [hch2] at E1 E4
  have hcur2 : (getP (setP (bumpCount s sem (-1)) s.currpid
      (fun e => { e with pstate := PR_WAIT, pwait := sem })) s.currpid) =
      { getP s s.currpid with pstate := PR_WAIT, pwait := sem } := by
    rw [getP_setP_self]
    rfl
  have hcurE : getP (enqueue_sem (setP (bumpCount s sem (-1)) s.currpid
      (fun e => { e with pstate := PR_WAIT, pwait := sem })) sem s.currpid) s.currpid =
      { getP s s.currpid with pstate := PR_WAIT, pwait := -1 } := by
    rw [E3, hcur2]
  have hh3 : (enqueue_sem (setP (bumpCount s sem (-1)) s.currpid
      (fun e => { e with pstate := PR_WAIT, pwait := sem })) sem s.currpid).readyHead =
      s.readyHead := by
    rw [E9]
    rfl
  have hready3 := readyChain_untouched
    (s := s)
    (t := enqueue_sem (setP (bumpCount s sem (-1)) s.currpid
      (fun e => { e with pstate := PR_WAIT, pwait := sem })) sem s.currpid)
    hh3 hsched.1
    (by
      intro y hy
      have hvy : validPid y := chainF_valid hsched.1.1 y hy
      have hyne : y ≠ s.currpid := fun hc => hsched.2.2 (hc ▸ hy)
      have hynC : y ∉ semChainList s sem := fun hc => (hdisj y hc).2.1 hy
      rw [E4 y hvy hyne hynC, getP_setP_ne hvc hvy hyne]
      rfl)
  have hcur3 : (enqueue_sem (setP (bumpCount s sem (-1)) s.currpid
      (fun e => { e with pstate := PR_WAIT, pwait := sem })) sem s.currpid).currpid =
      s.currpid := by
    rw [E8]
    rfl
  have hsched3 : schedWF (enqueue_sem (setP (bumpCount s sem (-1)) s.currpid
      (fun e => { e with pstate := PR_WAIT, pwait := sem })) sem s.currpid) := by
    refine ⟨hready3.2, ?_, ?_⟩
    · rw [hcur3]
      exact hvc
    · rw [hcur3, hready3.1]
      exact hsched.2.2
  have hnc3 : ¬((getP (enqueue_sem (setP (bumpCount s sem (-1)) s.currpid
      (fun e => { e with pstate := PR_WAIT, pwait := sem })) sem s.currpid)
      ((enqueue_sem (setP (bumpCount s sem (-1)) s.currpid
        (fun e => { e with pstate := PR_WAIT, pwait := sem })) sem s.currpid).currpid)).pstate
      = PR_CURR) := by
    rw [hcur3, hcurE]
    show ¬(PR_WAIT = PR_CURR)
    decide
  have hfr : ∀ q ∈ semChainList s sem ++ [s.currpid],
      getP (resched (enqueue_sem (setP (bumpCount s sem (-1)) s.currpid
        (fun e => { e with pstate := PR_WAIT, pwait := sem })) sem s.currpid)) q =
      getP (enqueue_sem (setP (bumpCount s sem (-1)) s.currpid
        (fun e => { e with pstate := PR_WAIT, pwait := sem })) sem s.currpid) q := by
    intro q hq
    rcases List.mem_append.mp hq with hqC | hqc
    · obtain ⟨a, b, c⟩ := hdisj q hqC
      refine resched_nonCurr_frame hsched3 hnc3 (semChainList_valid hwf q hqC) ?_ c
      rw [hready3.1]
      exact b
    · have hqcur : q = s.currpid := by simpa using hqc
      subst hqcur
      refine resched_nonCurr_frame hsched3 hnc3 hvc ?_ hc0
      rw [hready3.1]
      exact hsched.2.2
  have hchainR := @semChain_untouched
    (enqueue_sem (setP (bumpCount s sem (-1)) s.currpid
      (fun e => { e with pstate := PR_WAIT, pwait := sem })) sem s.currpid)
    (resched (enqueue_sem (setP (bumpCount s sem (-1)) s.currpid
      (fun e => { e with pstate := PR_WAIT, pwait := sem })) sem s.currpid))
    sem
    (by
      unfold getSQ
      rw [(resched_scalars _).2.1])
    E2
    (by
      intro y hy
      rw [E1] at hy
      rw [hfr y hy])
  have hsem0 : 0 ≤ sem ∧ sem < (NSEM : Int) := by
    push_neg at hsem
    exact hsem
  refine ⟨heq2, ?_, ?_, ?_, ?_, ?_, ?_⟩
  · rw [heq1]
    have hst : getS (resched (enqueue_sem (setP (bumpCount s sem (-1)) s.currpid
        (fun e => { e with pstate := PR_WAIT, pwait := sem })) sem s.currpid)) sem =
        getS (bumpCount s sem (-1)) sem := by
      unfold getS
      rw [(resched_scalars _).1, E7]
      rfl
    rw [hst, getS_count_bump]
    omega
  · rw [heq1, hchainR.1, E1]
  · rw [heq1, hfr s.currpid (List.mem_append.mpr (Or.inr (by simp))), hcurE]
  · rw [heq1, hfr s.currpid (List.mem_append.mpr (Or.inr (by simp))), hcurE]
  · rw [heq1, hfr s.currpid (List.mem_append.mpr (Or.inr (by simp))), hcurE]
    show ¬((-1 : Int) = sem)
    omega
  · intro t
    unfold waitResume
    split_ifs with hq
    · simp [hq]
    · constructor
      · intro h1
        exact absurd h1 (by decide)
      · intro h1
        exact absurd h1 hq

/-- Claim C2 witness: the corrected behaviour at the concrete state sC2
(semaphore 0 allocated with count 0, process 1 current). -/
theorem wait_blocking_spec_witness :
    (¬((0 : Int) < 0 ∨ (NSEM : Int) ≤ 0) ∧ ¬((getS sC2 0).queue = -1) ∧
     (getS sC2 0).count - 1 < 0 ∧ semQWF sC2 0 ∧ schedWF sC2 ∧
     schedDisjoint sC2 (semChainList sC2 0) ∧
     sC2.currpid ∉ semChainList sC2 0 ∧ sC2.currpid ≠ 0) ∧
    ((waitEnter sC2 0).2 = WaitRes.blocked ∧
    (getS (waitEnter sC2 0).1 0).count = (getS sC2 0).count - 1 ∧
    semChainList (waitEnter sC2 0).1 0 = semChainList sC2 0 ++ [sC2.currpid] ∧
    (getP (waitEnter sC2 0).1 sC2.currpid).pstate = PR_WAIT ∧
    (getP (waitEnter sC2 0).1 sC2.currpid).pwait = -1 ∧
    ¬((getP (waitEnter sC2 0).1 sC2.currpid).pwait = 0) ∧
    (∀ t : Kernel, waitResume t 0 = SYSERR ↔ (getS t 0).queue = -1)) :=
  ⟨⟨by decide, by decide, by decide, by decide, by decide, by decide, by decide,
    by decide⟩,
    wait_blocking_spec (by decide) (by decide) (by decide) (by decide) (by decide)
      (by decide) (by decide) (by decide)⟩

end XinuCore
